import Mathlib

/-!
Verification development for the Polymarket BTC up/down paper-trading bot.

The development shallowly embeds the signal-to-decision pipeline's stateful
core: the VWAP indicator (`src/indicators/vwap.js`), the trade ledger
(`src/paper_trading/ledger.js`) and the trade state machine
(`src/paper_trading/trader.js`, newest revision). JavaScript numbers that the
code guards with `typeof`/`Number.isFinite` checks are embedded as `JNum`
(a finite rational or a non-finite value); fields that can be `null` or
`undefined` are embedded as `Option`. Dollar amounts, probabilities and
prices are exact rationals; `toFixed(2)` is modelled by `round2`.
-/

namespace PolyBot

/-- A JavaScript number as stored in a record field: either a finite rational
or one of the non-finite values (`NaN`, `Infinity`, `-Infinity`). -/
inductive JNum where
  | fin (q : ℚ)
  | nan
  | posInf
  | negInf
deriving DecidableEq, Repr

/-- `Number.isFinite(x)` for a JS number. -/
def JNum.isFinite : JNum → Bool
  | .fin _ => true
  | _ => false

/-- The rational carried by a finite JS number; `0` for non-finite values
(only used where the source either guards with `Number.isFinite` first or
where the JS arithmetic on the non-finite value agrees with the `0` case). -/
def JNum.toQ : JNum → ℚ
  | .fin q => q
  | _ => 0

/-- The JS comparison `x > 0`: false for `NaN` and `-Infinity`, true for
`Infinity`. -/
def JNum.gtZero : JNum → Bool
  | .fin q => decide (0 < q)
  | .posInf => true
  | _ => false

/-- `x > 0` on an optional JS number (`undefined > 0` is false in JS). -/
def optJNumGtZero : Option JNum → Bool
  | some j => j.gtZero
  | none => false

/-- Value of an optional JS number, `0` when absent or non-finite. -/
def optJNumToQ : Option JNum → ℚ
  | some j => j.toQ
  | none => 0

/-- `Number(x).toFixed(2)` read back as an exact rational: the integer `n`
minimizing `|n / 100 - x|`, ties resolved to the larger `n` (ECMA-262). -/
def round2 (q : ℚ) : ℚ := (⌊q * 100 + 1 / 2⌋ : ℤ) / 100

/-! ## VWAP (`src/indicators/vwap.js`) -/

/-- A 1-minute bar as consumed by `computeSessionVwap`; `volume` may be
absent or a non-finite number (oracle-derived bars). -/
structure Candle where
  high : ℚ
  low : ℚ
  close : ℚ
  volume : Option JNum
deriving DecidableEq, Repr

/-- `(c.high + c.low + c.close) / 3`. -/
def typicalPrice (c : Candle) : ℚ := (c.high + c.low + c.close) / 3

/-- `typeof c.volume === "number" && Number.isFinite(c.volume) ? c.volume : 0`. -/
def candleVol (c : Candle) : ℚ :=
  match c.volume with
  | some (JNum.fin q) => q
  | _ => 0

/-- Accumulator of `computeSessionVwap`'s loop: price·volume sum, volume sum,
typical-price sum and bar count. -/
structure VwapAcc where
  pv : ℚ
  v : ℚ
  tpSum : ℚ
  n : ℕ
deriving DecidableEq, Repr

/-- One iteration of the `for (const c of candles)` loop. -/
def vwapStep (acc : VwapAcc) (c : Candle) : VwapAcc :=
  { pv := acc.pv + typicalPrice c * candleVol c
    v := acc.v + candleVol c
    tpSum := acc.tpSum + typicalPrice c
    n := acc.n + 1 }

/-- `computeSessionVwap(candles)`: session VWAP, falling back to the
unweighted typical-price mean when the summed volume is zero; `null` on an
empty input. -/
def computeSessionVwap (candles : List Candle) : Option ℚ :=
  if candles = [] then none
  else
    let acc := candles.foldl vwapStep ⟨0, 0, 0, 0⟩
    if acc.v = 0 then
      if acc.n ≠ 0 then some (acc.tpSum / (acc.n : ℚ)) else none
    else some (acc.pv / acc.v)

/-! ## Ledger (`src/paper_trading/ledger.js`) -/

/-- Trade direction, the JS strings `"UP"` / `"DOWN"`. -/
inductive Side where
  | up
  | down
deriving DecidableEq, Repr

/-- The other direction (`trade.side === "UP" ? "DOWN" : "UP"`). -/
def Side.other : Side → Side
  | .up => .down
  | .down => .up

/-- Trade status, the JS strings `"OPEN"` / `"CLOSED"`. -/
inductive TStatus where
  | opened
  | closed
deriving DecidableEq, Repr

/-- A trade record as persisted by the ledger. Fields the code may leave
`null`/`undefined` or fill with non-number values are `Option`s; `entryPrice`
and `shares` are optional JS numbers because the ledger and the trader guard
them with `typeof`/`Number.isFinite` checks. -/
structure Trade where
  id : Option ℕ
  timestamp : Option String
  marketSlug : String
  side : Side
  instrument : String
  entryPrice : Option JNum
  shares : Option JNum
  contractSize : ℚ
  status : Option TStatus
  entryTime : Option String
  exitPrice : Option ℚ
  exitTime : Option String
  pnl : ℚ
  entryPhase : Option String
  exitReason : Option String
  sideInferred : Option Bool
  entryReason : Option String
deriving DecidableEq, Repr

/-- `trade.status === "OPEN"`. -/
def Trade.isOpen (t : Trade) : Bool := t.status = some TStatus.opened

/-- `trade.status === "CLOSED"`. -/
def Trade.isClosed (t : Trade) : Bool := t.status = some TStatus.closed

/-- Derived ledger summary. -/
structure Summary where
  totalTrades : ℕ
  wins : ℕ
  losses : ℕ
  totalPnL : ℚ
  winRate : ℚ
deriving DecidableEq, Repr

/-- The persisted ledger: trade collection plus derived summary. -/
structure Ledger where
  trades : List Trade
  summary : Summary
deriving DecidableEq, Repr

/-- Accumulator of `recalculateSummary`'s loop. -/
structure SumAcc where
  wins : ℕ
  losses : ℕ
  totalPnL : ℚ
deriving DecidableEq, Repr

/-- One iteration of `recalculateSummary`'s `for` loop: CLOSED trades
contribute their pnl and a win (`pnl > 0`) or a loss. -/
def sumStep (a : SumAcc) (t : Trade) : SumAcc :=
  if t.isClosed then
    { wins := if 0 < t.pnl then a.wins + 1 else a.wins
      losses := if 0 < t.pnl then a.losses else a.losses + 1
      totalPnL := a.totalPnL + t.pnl }
  else a

/-- `recalculateSummary(trades)`: pure fold over the trade collection;
`winRate` is a percentage formatted with `toFixed(2)`. -/
def recalculateSummary (trades : List Trade) : Summary :=
  let acc := trades.foldl sumStep ⟨0, 0, 0⟩
  let totalClosed := acc.wins + acc.losses
  { totalTrades := trades.length
    wins := acc.wins
    losses := acc.losses
    totalPnL := acc.totalPnL
    winRate := if 0 < totalClosed then round2 ((acc.wins : ℚ) / (totalClosed : ℚ) * 100) else 0 }

/-- The `entryPrice` half of the positivity check shared by `addTrade` and
the trader's startup guard:
`typeof ep !== "number" || !Number.isFinite(ep) || ep <= 0`. -/
def badEntryPrice (ep : Option JNum) : Bool :=
  match ep with
  | some (JNum.fin q) => decide (q ≤ 0)
  | _ => true

/-- The `shares` half of the positivity check:
`sh !== null && sh !== undefined && (!Number.isFinite(Number(sh)) || Number(sh) <= 0)`. -/
def badShares (sh : Option JNum) : Bool :=
  match sh with
  | none => false
  | some (JNum.fin q) => decide (q ≤ 0)
  | some _ => true

/-- `addTrade(trade)`'s ledger mutation (the body passed to `updateLedger`),
including the up-front rejection of invalid OPEN trades. `freshId` and
`nowTs` stand for the `Date.now()`-based id and timestamp generated when the
incoming record lacks them. -/
def addTrade (freshId : ℕ) (nowTs : String) (trade : Trade) (ledger : Ledger) : Ledger :=
  let isOpenIn : Bool := (trade.status.getD TStatus.opened) = TStatus.opened
  if isOpenIn && (badEntryPrice trade.entryPrice || badShares trade.shares) then ledger
  else
    let newTrade := { trade with
      id := some (trade.id.getD freshId)
      timestamp := some (trade.timestamp.getD nowTs)
      status := some (trade.status.getD TStatus.opened) }
    let trades := ledger.trades ++ [newTrade]
    { trades := trades, summary := recalculateSummary trades }

/-- Replace the first trade whose id matches (`findIndex` + assignment in the
source). Call sites pass a fully-specified record, so the source's
`{...old, ...patch}` merge equals the patch. -/
def replaceFirst (tradeId : Option ℕ) (patched : Trade) : List Trade → List Trade
  | [] => []
  | t :: ts =>
    if t.id = tradeId then patched :: ts else t :: replaceFirst tradeId patched ts

/-- `updateTrade(tradeId, updateData)`'s ledger mutation: merge onto the
matching record and recompute the summary; warn-and-no-op when absent. -/
def updateTrade (tradeId : Option ℕ) (patched : Trade) (ledger : Ledger) : Ledger :=
  if ledger.trades.any (fun t => t.id = tradeId) then
    let trades := replaceFirst tradeId patched ledger.trades
    { trades := trades, summary := recalculateSummary trades }
  else ledger

/-- `getOpenTrade()`: the first trade with status OPEN, if any. -/
def getOpenTrade (ledger : Ledger) : Option Trade :=
  ledger.trades.find? (fun t => t.isOpen)

/-- In-memory cache plus on-disk file contents of the ledger module. -/
structure Store where
  mem : Ledger
  disk : Ledger
deriving DecidableEq, Repr

/-- `saveLedger(ledger)`: attempts `fs.writeFileSync`; `writeOk` models
whether the write succeeds. A failure is caught and only logged, so the
returned error is always `none`; the file keeps its previous contents. -/
def saveLedger (writeOk : Bool) (ledger : Ledger) (disk : Ledger) : Ledger × Option String :=
  if writeOk then (ledger, none) else (disk, none)

/-- `updateLedger(updateFn)`: applies the update to the in-memory ledger,
then persists via `saveLedger`; the whole body sits in a `try`/`catch` that
logs, so the caller never observes an error. -/
def updateLedger (writeOk : Bool) (updateFn : Ledger → Ledger) (st : Store) :
    Store × Option String :=
  let mem := updateFn st.mem
  let saved := saveLedger writeOk mem st.disk
  ({ mem := mem, disk := saved.1 }, none)

/-! ## Configuration (`src/config.js`, `CONFIG.paperTrading`) -/

/-- The `CONFIG.paperTrading` block as read by the trader. Fields the trader
reads through `??` fallbacks are `Option`s (the shipped `config.js` always
sets them; `none` models a build with the field absent). The source's
`minVolumeRatio` field is called `minVolumeRatioCfg` here. -/
structure PaperConfig where
  enabled : Bool
  startingBalance : Option ℚ
  stakePct : Option ℚ
  minTradeUsd : Option ℚ
  maxTradeUsd : Option ℚ
  contractSize : Option ℚ
  minProbEarly : ℚ
  minProbMid : ℚ
  minProbLate : ℚ
  edgeEarly : ℚ
  edgeMid : ℚ
  edgeLate : ℚ
  stopLossPct : Option ℚ
  exitFlipMinProb : Option ℚ
  exitFlipMargin : Option ℚ
  flipOnProbabilityFlip : Option Bool
  flipCooldownSeconds : Option ℚ
  minLiquidity : Option ℚ
  maxSpread : ℚ
  minVolumeRecent : Option ℚ
  minVolumeRatioCfg : Option ℚ
  minPolyPrice : Option ℚ
  maxPolyPrice : Option ℚ
  noEntryFinalMinutes : ℚ
  minCandlesForEntry : Option ℕ
  recGating : String
deriving DecidableEq, Repr

/-- The shipped defaults of `CONFIG.paperTrading` (newest `config.js`, no
environment overrides). -/
def defaultPaperConfig : PaperConfig where
  enabled := true
  startingBalance := some 1000
  stakePct := some (1 / 10)
  minTradeUsd := some 25
  maxTradeUsd := some 250
  contractSize := some 100
  minProbEarly := 58 / 100
  minProbMid := 62 / 100
  minProbLate := 66 / 100
  edgeEarly := 6 / 100
  edgeMid := 10 / 100
  edgeLate := 16 / 100
  stopLossPct := some (20 / 100)
  exitFlipMinProb := some (62 / 100)
  exitFlipMargin := some (6 / 100)
  flipOnProbabilityFlip := some false
  flipCooldownSeconds := some 180
  minLiquidity := some 10000
  maxSpread := 1 / 100
  minVolumeRecent := some 0
  minVolumeRatioCfg := some 0
  minPolyPrice := some (5 / 1000)
  maxPolyPrice := some (98 / 100)
  noEntryFinalMinutes := 2
  minCandlesForEntry := some 30
  recGating := "loose"

/-! ## Tick inputs (the `signals` object built in `src/index.js`) -/

/-- The upstream recommendation `signals.recOut` (`decide(...)` in
`src/engines/edge.js`). -/
structure RecOut where
  action : String
  side : Option Side
  phase : String
  edge : Option ℚ
deriving DecidableEq, Repr

/-- The indicator fields of `signals.indicators` the trader reads. A field is
`some` exactly when the JS value is a finite number (resp. a non-empty string
for `heikenColor`, whose emptiness the code checks separately). -/
structure Indicators where
  rsiNow : Option ℚ
  vwapNow : Option ℚ
  vwapSlope : Option ℚ
  macdHist : Option ℚ
  heikenColor : Option String
  heikenCount : Option ℚ
  volumeRecent : Option ℚ
  volumeAvg : Option ℚ
deriving DecidableEq, Repr

/-- The per-tick `signals` object handed to `Trader.processSignals`.
The source's `rec` field is called `recOut` here (`rec` is reserved for the
structure recursor).
`polyUp`/`polyDown` are `signals.polyPrices.UP/DOWN` (dollars in (0,1), or
`null`); `spreadUp`/`spreadDown` are the orderbook spreads (absent models
both `null` and a missing path, which the `!== null && >` check treats the
same way); `modelUp`/`modelDown` are present iff the JS value is a number. -/
structure Signals where
  recOut : Option RecOut
  timeLeftMin : ℚ
  marketSlug : Option String
  liquidityNum : Option ℚ
  spreadUp : Option ℚ
  spreadDown : Option ℚ
  polyUp : Option ℚ
  polyDown : Option ℚ
  modelUp : Option ℚ
  modelDown : Option ℚ
  indicators : Indicators
deriving DecidableEq, Repr

/-- `signals.polyPrices?.[side] ?? null`. -/
def Signals.polyPrice (s : Signals) : Side → Option ℚ
  | .up => s.polyUp
  | .down => s.polyDown

/-- The model probability for a side (`side === "UP" ? signals.modelUp :
signals.modelDown`). -/
def Signals.modelProb (s : Signals) : Side → Option ℚ
  | .up => s.modelUp
  | .down => s.modelDown

/-! ## Trader state (`src/paper_trading/trader.js`) -/

/-- One entry of the `blockers` debug array, embedded as a typed value
instead of the source's formatted string. -/
inductive EntryBlocker where
  | recStrict (action : String)
  | recLoose (action : String)
  | recPlain (action : String)
  | inferredSide (s : Side)
  | missingSide
  | missingPolyPrice
  | warmup (candles minCandles : ℕ)
  | indicatorsNotReady
  | tradeAlreadyOpen
  | tooLate (finalMinutes : ℚ)
  | lowLiq
  | lowVol
  | priceOutOfBounds (price : ℚ)
  | probBelow (p minReq : ℚ)
  | edgeBelow (e minReq : ℚ)
deriving DecidableEq, Repr

/-- `this.lastEntryStatus` (`at` is called `checkedAt` here). -/
structure EntryStatus where
  checkedAt : Option String
  eligible : Bool
  blockers : List EntryBlocker
deriving DecidableEq, Repr

/-- The mutable fields of the `Trader` instance. -/
structure TraderState where
  openTrade : Option Trade
  lastFlipAtMs : ℚ
  lastEntryStatus : EntryStatus
deriving DecidableEq, Repr

/-- Per-tick environment: the signals, `klines1m.length` (0 when the
argument is not an array), the clock readings and the id that would be
generated for a trade opened this tick. -/
structure TickEnv where
  signals : Signals
  candleCount : ℕ
  nowMs : ℚ
  nowIso : String
  freshId : ℕ
deriving DecidableEq, Repr

/-- Combined trader + in-memory ledger state acted on by one tick. -/
structure SysState where
  trader : TraderState
  ledger : Ledger
deriving DecidableEq, Repr

/-- `String(CONFIG.paperTrading.recGating || "loose")`. -/
def recGatingOf (cfg : PaperConfig) : String :=
  if cfg.recGating = "" then "loose" else cfg.recGating

/-- `recGating === "strict"`. -/
def strictRecOf (cfg : PaperConfig) : Bool := recGatingOf cfg = "strict"

/-- `signals.recOut?.action || "NONE"`. -/
def recActionOf (signals : Signals) : String :=
  match signals.recOut with
  | some r => if r.action = "" then "NONE" else r.action
  | none => "NONE"

/-- `signals.market?.slug || "unknown"`. -/
def marketSlugOf (signals : Signals) : String :=
  match signals.marketSlug with
  | some s => if s = "" then "unknown" else s
  | none => "unknown"

/-- Result of the side-selection block at the top of `processSignals`. -/
structure SideResolution where
  side : Option Side
  sideInferred : Bool
  blockers : List EntryBlocker
deriving DecidableEq, Repr

/-- The loose-mode side inference: when the recommendation provides no side
and gating is not strict, infer the side from whichever model probability is
larger (`upP >= downP ? "UP" : "DOWN"`), provided both are numbers. -/
def resolveSide (strictRec : Bool) (signals : Signals) : SideResolution :=
  let side0 := signals.recOut.bind (fun r => r.side)
  if side0.isNone && !strictRec then
    match signals.modelUp, signals.modelDown with
    | some u, some d =>
      let s := if d ≤ u then Side.up else Side.down
      { side := some s, sideInferred := true, blockers := [EntryBlocker.inferredSide s] }
    | _, _ => { side := side0, sideInferred := false, blockers := [] }
  else { side := side0, sideInferred := false, blockers := [] }

/-- The spread/liquidity quality filter `isLowLiquidity`:
a present spread above `maxSpread` on either book, or a finite
`market.liquidityNum` below `minLiquidity ?? 0`. -/
def lowLiquidity (cfg : PaperConfig) (signals : Signals) : Bool :=
  let spreadBadU := match signals.spreadUp with
    | some v => decide (cfg.maxSpread < v)
    | none => false
  let spreadBadD := match signals.spreadDown with
    | some v => decide (cfg.maxSpread < v)
    | none => false
  let hasLowLiquidity := match signals.liquidityNum with
    | some l => decide (l < cfg.minLiquidity.getD 0)
    | none => false
  spreadBadU || spreadBadD || hasLowLiquidity

/-- The volume filter `isLowVolume` (absolute and relative thresholds, each
disabled when its configured minimum is 0). -/
def lowVolume (cfg : PaperConfig) (signals : Signals) : Bool :=
  let volumeRecent := signals.indicators.volumeRecent
  let volumeAvg := signals.indicators.volumeAvg
  let minVolumeRecent := cfg.minVolumeRecent.getD 0
  let minVolumeR := cfg.minVolumeRatioCfg.getD 0
  let isLowVolumeAbsolute := decide (0 < minVolumeRecent) &&
    (match volumeRecent with
     | some vr => decide (vr < minVolumeRecent)
     | none => false)
  let isLowVolumeRelative := decide (0 < minVolumeR) &&
    (match volumeRecent, volumeAvg with
     | some vr, some va => decide (vr < va * minVolumeR)
     | _, _ => false)
  isLowVolumeAbsolute || isLowVolumeRelative

/-- `indicatorsPopulated`: every core indicator is a finite number (and
Heiken-Ashi has a non-empty color). -/
def indicatorsPopulated (ind : Indicators) : Bool :=
  ind.rsiNow.isSome && ind.vwapNow.isSome && ind.vwapSlope.isSome &&
  ind.macdHist.isSome &&
  (match ind.heikenColor with
   | some c => decide (c ≠ "")
   | none => false) &&
  ind.heikenCount.isSome

/-- The phase-based entry thresholds `(minProb, edgeThreshold)`. -/
def phaseThresholds (cfg : PaperConfig) (phase : String) : ℚ × ℚ :=
  if phase = "EARLY" then (cfg.minProbEarly, cfg.edgeEarly)
  else if phase = "MID" then (cfg.minProbMid, cfg.edgeMid)
  else (cfg.minProbLate, cfg.edgeLate)

/-- `getBalanceSnapshot().balance`: starting balance plus the ledger
summary's realized PnL. -/
def getBalance (cfg : PaperConfig) (ledger : Ledger) : ℚ :=
  cfg.startingBalance.getD 1000 + ledger.summary.totalPnL

/-- `Math.floor(size * 100) / 100`: round down to whole cents. -/
def floorCents (q : ℚ) : ℚ := (⌊q * 100⌋ : ℤ) / 100

/-- `computeContractSizeUsd()`: bankroll-based position sizing — stake
percent of balance (or the legacy fixed contract size), clamped to
`[minTradeUsd, maxTradeUsd]`, capped at the available balance, rounded down
to cents; `0` when no balance is available. -/
def computeContractSizeUsd (cfg : PaperConfig) (ledger : Ledger) : ℚ :=
  let balance := getBalance cfg ledger
  if balance ≤ 0 then 0
  else
    let useDynamic := match cfg.stakePct with
      | some p => decide (0 < p)
      | none => false
    let size0 := if useDynamic then balance * cfg.stakePct.getD 0 else cfg.contractSize.getD 100
    let size1 := match cfg.maxTradeUsd with
      | some mx => min mx size0
      | none => size0
    let size2 := max (cfg.minTradeUsd.getD 0) size1
    floorCents (min size2 balance)

/-- The shares actually held by a trade: the stored `shares` when it is a
finite number, else `contractSize / entryPrice` when `entryPrice > 0`,
else 0 (the `Infinity` entry-price case also yields 0, as in JS). -/
def heldShares (t : Trade) : ℚ :=
  match t.shares with
  | some (JNum.fin q) => q
  | _ => if optJNumGtZero t.entryPrice then t.contractSize / optJNumToQ t.entryPrice else 0

/-- The record written by `closeTrade(trade, exitPrice, reason)`: exit data
filled in, `pnl = (shares held) × exitPrice − contractSize` rounded with
`toFixed(2)`, status CLOSED. -/
def closedRecord (nowIso : String) (t : Trade) (exitPrice : ℚ) (reason : String) : Trade :=
  { t with
    exitPrice := some exitPrice
    exitTime := some nowIso
    pnl := round2 (heldShares t * exitPrice - t.contractSize)
    status := some TStatus.closed
    exitReason := some reason }

/-- The probability-flip condition `opposingMoreLikely` for the held side:
the opposing model probability clears `exitFlipMinProb ?? 0.55` and exceeds
the held probability by `exitFlipMargin ?? 0.03`; false when either
probability is not a number. -/
def opposingMoreLikely (cfg : PaperConfig) (signals : Signals) (held : Side) : Bool :=
  let minProb := cfg.exitFlipMinProb.getD (55 / 100)
  let margin := cfg.exitFlipMargin.getD (3 / 100)
  match held, signals.modelUp, signals.modelDown with
  | .up, some u, some d => decide (minProb ≤ d) && decide (u + margin ≤ d)
  | .down, some u, some d => decide (minProb ≤ u) && decide (d + margin ≤ u)
  | _, _, _ => false

/-- The mark-to-market stop-loss test `stopLossHit`: with a current quote for
the held side, the mark-to-market pnl is at or below
`-|contractSize × (stopLossPct ?? 0.25)|`; false without a quote. -/
def stopLossHit (cfg : PaperConfig) (signals : Signals) (trade : Trade) : Bool :=
  match signals.polyPrice trade.side with
  | some curPx =>
    let pnlNow := heldShares trade * curPx - trade.contractSize
    decide (pnlNow ≤ -|trade.contractSize * cfg.stopLossPct.getD (25 / 100)|)
  | none => false

/-- The `(shouldExit, exitReason, shouldFlip)` triple accumulated by the
exit rules. -/
structure ExitDecision where
  shouldExit : Bool
  exitReason : String
  shouldFlip : Bool
deriving DecidableEq, Repr

/-- The three exit rules in priority order: probability flip (optionally
scheduling a flip-open), conditional stop loss (flip condition required), and
end-of-candle (`timeLeftMin < 0.5`). -/
def exitDecision (cfg : PaperConfig) (env : TickEnv) (lastFlipAtMs : ℚ)
    (trade : Trade) (canEnter isTooLateToEnter : Bool) : ExitDecision :=
  let signals := env.signals
  let e1 : ExitDecision :=
    if opposingMoreLikely cfg signals trade.side then
      let flipEnabled := cfg.flipOnProbabilityFlip.getD true
      let cooldownMs := cfg.flipCooldownSeconds.getD 60 * 1000
      { shouldExit := true
        exitReason := "Probability Flip"
        shouldFlip := flipEnabled && canEnter && !isTooLateToEnter &&
          decide (cooldownMs ≤ env.nowMs - lastFlipAtMs) }
    else ⟨false, "", false⟩
  let e2 : ExitDecision :=
    if !e1.shouldExit && stopLossHit cfg signals trade &&
        opposingMoreLikely cfg signals trade.side then
      { e1 with shouldExit := true, exitReason := "Stop Loss" }
    else e1
  if !e2.shouldExit && decide (signals.timeLeftMin < 1 / 2) then
    { e2 with shouldExit := true, exitReason := "End of Candle" }
  else e2

/-- The side/price blockers recorded by the side-selection block. -/
def sideBlockers (res : SideResolution) (signals : Signals) : List EntryBlocker :=
  res.blockers ++
  (if res.side.isNone then [EntryBlocker.missingSide] else []) ++
  (if res.side.isSome && (res.side.bind signals.polyPrice).isNone then
    [EntryBlocker.missingPolyPrice] else [])

/-- The entry-debug record written on the early return for a missing side or
price (`blockers.length ? blockers : [Rec=...]`). -/
def earlyReturnStatus (nowIso action : String) (entryBlockers : List EntryBlocker) :
    EntryStatus :=
  ⟨some nowIso, false,
   if entryBlockers.isEmpty then [EntryBlocker.recPlain action] else entryBlockers⟩

/-- The `blockers` debug array built for the UI on a fully-evaluated tick,
and the eligibility flag derived from it. -/
def entryDebugStatus (cfg : PaperConfig) (env : TickEnv) (openTradeNow : Option Trade)
    (entryBlockers : List EntryBlocker) (s : Side) (px : ℚ)
    (canEnter indPop isTooLateToEnter isLowLiquidity isLowVolume : Bool) : EntryStatus :=
  let signals := env.signals
  let strictRec := strictRecOf cfg
  let action := recActionOf signals
  let rawAction := signals.recOut.map (fun r => r.action)
  let minCandlesForEntry := cfg.minCandlesForEntry.getD 30
  let minPolyDbg := cfg.minPolyPrice.getD (2 / 1000)
  let maxPolyDbg := cfg.maxPolyPrice.getD (98 / 100)
  let blockers := entryBlockers ++
    (if !canEnter then [EntryBlocker.warmup env.candleCount minCandlesForEntry] else []) ++
    (if !indPop then [EntryBlocker.indicatorsNotReady] else []) ++
    (if openTradeNow.isSome then [EntryBlocker.tradeAlreadyOpen] else []) ++
    (if strictRec && decide (rawAction ≠ some "ENTER") then
      [EntryBlocker.recStrict action] else []) ++
    (if !strictRec && decide (rawAction ≠ some "ENTER") then
      [EntryBlocker.recLoose action] else []) ++
    (if isTooLateToEnter then [EntryBlocker.tooLate cfg.noEntryFinalMinutes] else []) ++
    (if isLowLiquidity then [EntryBlocker.lowLiq] else []) ++
    (if isLowVolume then [EntryBlocker.lowVol] else []) ++
    (if decide (px < minPolyDbg) || decide (maxPolyDbg < px) then
      [EntryBlocker.priceOutOfBounds px] else []) ++
    (match signals.recOut.bind (fun r => r.side) with
     | some _ =>
       let tpair := phaseThresholds cfg ((signals.recOut.map (fun r => r.phase)).getD "")
       let edgeV := (signals.recOut.bind (fun r => r.edge)).getD 0
       (match signals.modelProb s with
        | some p => if decide (p < tpair.1) then [EntryBlocker.probBelow p tpair.1] else []
        | none => []) ++
       (if decide (edgeV < tpair.2) then [EntryBlocker.edgeBelow edgeV tpair.2] else [])
     | none => [])
  ⟨some env.nowIso, blockers.isEmpty, blockers⟩

/-- The trade object literal constructed by the entry path. -/
def entryRecord (env : TickEnv) (marketSlug : String) (s : Side) (sideInferred : Bool)
    (px sh size : ℚ) (phase : String) : Trade :=
  { id := some env.freshId
    timestamp := some env.nowIso
    marketSlug := marketSlug
    side := s
    instrument := "POLY"
    entryPrice := some (JNum.fin px)
    shares := some (JNum.fin sh)
    contractSize := size
    status := some TStatus.opened
    entryTime := some env.nowIso
    exitPrice := none
    exitTime := none
    pnl := 0
    entryPhase := some phase
    exitReason := none
    sideInferred := some sideInferred
    entryReason := none }

/-- The trade object literal constructed by the flip-open path. -/
def flipRecord (env : TickEnv) (marketSlug : String) (newSide : Side)
    (epx sh size : ℚ) : Trade :=
  { id := some env.freshId
    timestamp := some env.nowIso
    marketSlug := marketSlug
    side := newSide
    instrument := "POLY"
    entryPrice := some (JNum.fin epx)
    shares := some (JNum.fin sh)
    contractSize := size
    status := some TStatus.opened
    entryTime := some env.nowIso
    exitPrice := none
    exitTime := none
    pnl := 0
    entryPhase := some ((env.signals.recOut.map (fun r => r.phase)).getD "MID")
    exitReason := none
    sideInferred := none
    entryReason := some "Flip" }

/-- The trade record built by the entry path once every gate has passed,
`none` when the price-sanity bound, the computed size or the computed shares
reject the entry. -/
def tryOpenTrade (cfg : PaperConfig) (env : TickEnv) (marketSlug : String) (s : Side)
    (sideInferred : Bool) (px : ℚ) (phase : String) (ledger : Ledger) : Option Trade :=
  let minPoly := cfg.minPolyPrice.getD (1 / 1000)
  let maxPoly := cfg.maxPolyPrice.getD (999 / 1000)
  if decide (px < minPoly) || decide (maxPoly < px) then none
  else
    let contractSizeUsd := computeContractSizeUsd cfg ledger
    if decide (contractSizeUsd ≤ 0) then none
    else
      let shares : Option ℚ := if decide (0 < px) then some (contractSizeUsd / px) else none
      match shares with
      | none => none
      | some sh =>
        if decide (sh ≤ 0) then none
        else some (entryRecord env marketSlug s sideInferred px sh contractSizeUsd phase)

/-- The flip-open record built immediately after a probability-flip close,
`none` when the opposing quote, its sanity bounds, the quality filters, the
size or the shares reject the flip. -/
def tryFlipTrade (cfg : PaperConfig) (env : TickEnv) (marketSlug : String) (newSide : Side)
    (isLowLiquidity isLowVolume : Bool) (ledger : Ledger) : Option Trade :=
  match env.signals.polyPrice newSide with
  | none => none
  | some epx =>
    let minPoly := cfg.minPolyPrice.getD (1 / 1000)
    let maxPoly := cfg.maxPolyPrice.getD (999 / 1000)
    if decide (minPoly ≤ epx) && decide (epx ≤ maxPoly) && !isLowLiquidity && !isLowVolume then
      let contractSizeUsd := computeContractSizeUsd cfg ledger
      if decide (contractSizeUsd ≤ 0) then none
      else
        let shares : Option ℚ := if decide (0 < epx) then some (contractSizeUsd / epx) else none
        match shares with
        | none => none
        | some sh =>
          if decide (0 < sh) then some (flipRecord env marketSlug newSide epx sh contractSizeUsd)
          else none
    else none

/-- The `--- EXIT ---` branch of `processSignals`: rollover force-close,
then the exit rules, closing at the held side's current quote and optionally
flip-opening the opposite side. `st1trader` is the trader state with the
already-updated entry-debug record (its `openTrade` still holds `trade`). -/
def processExit (cfg : PaperConfig) (env : TickEnv) (st1trader : TraderState)
    (ledger : Ledger) (trade : Trade) (marketSlug : String)
    (canEnter isTooLateToEnter isLowLiquidity isLowVolume : Bool) : SysState :=
  let signals := env.signals
  if decide (trade.marketSlug ≠ "") && decide (marketSlug ≠ "") &&
      decide (trade.marketSlug ≠ marketSlug) then
    match signals.polyPrice trade.side with
    | some exitPx =>
      { trader := { st1trader with openTrade := none }
        ledger := updateTrade trade.id (closedRecord env.nowIso trade exitPx "Market Rollover") ledger }
    | none => { trader := st1trader, ledger := ledger }
  else
    let dec := exitDecision cfg env st1trader.lastFlipAtMs trade canEnter isTooLateToEnter
    if dec.shouldExit then
      match signals.polyPrice trade.side with
      | some exitPx =>
        let ledger1 := updateTrade trade.id (closedRecord env.nowIso trade exitPx dec.exitReason) ledger
        if dec.shouldFlip then
          match tryFlipTrade cfg env marketSlug trade.side.other isLowLiquidity isLowVolume ledger1 with
          | some flipped =>
            { trader := { st1trader with openTrade := some flipped, lastFlipAtMs := env.nowMs }
              ledger := addTrade env.freshId env.nowIso flipped ledger1 }
          | none => { trader := { st1trader with openTrade := none }, ledger := ledger1 }
        else { trader := { st1trader with openTrade := none }, ledger := ledger1 }
      | none => { trader := st1trader, ledger := ledger }
    else { trader := st1trader, ledger := ledger }

/-- `Trader.processSignals(signals, klines1m)`: one evaluated tick of the
trade state machine, acting on the trader fields and the in-memory ledger. -/
def processSignals (cfg : PaperConfig) (env : TickEnv) (st : SysState) : SysState :=
  if !cfg.enabled then st
  else
    let signals := env.signals
    let minCandlesForEntry := cfg.minCandlesForEntry.getD 30
    let indicatorsReady := decide (minCandlesForEntry ≤ env.candleCount)
    let action := recActionOf signals
    let marketSlug := marketSlugOf signals
    let strictRec := strictRecOf cfg
    if st.trader.openTrade.isNone && strictRec && decide (action ≠ "ENTER") then
      { st with trader := { st.trader with lastEntryStatus :=
          ⟨some env.nowIso, false, [EntryBlocker.recStrict action]⟩ } }
    else
      let res := resolveSide strictRec signals
      let entryBlockers := sideBlockers res signals
      match res.side, res.side.bind signals.polyPrice with
      | none, _ =>
        let es := earlyReturnStatus env.nowIso action entryBlockers
        { st with trader := { st.trader with lastEntryStatus := es } }
      | some _, none =>
        let es := earlyReturnStatus env.nowIso action entryBlockers
        { st with trader := { st.trader with lastEntryStatus := es } }
      | some s, some px =>
        let isLowLiquidity := lowLiquidity cfg signals
        let isTooLateToEnter := decide (signals.timeLeftMin < cfg.noEntryFinalMinutes)
        let isLowVolume := lowVolume cfg signals
        let canEnter := indicatorsReady
        let indPop := indicatorsPopulated signals.indicators
        let dbg := entryDebugStatus cfg env st.trader.openTrade entryBlockers s px
          canEnter indPop isTooLateToEnter isLowLiquidity isLowVolume
        let st1trader : TraderState := { st.trader with lastEntryStatus := dbg }
        let wantsEnter := decide (action = "ENTER") || !strictRec
        if canEnter && indPop && st.trader.openTrade.isNone && wantsEnter &&
            !isTooLateToEnter && !isLowLiquidity && !isLowVolume then
          let phase := (signals.recOut.map (fun r => r.phase)).getD ""
          let edgeV := (signals.recOut.bind (fun r => r.edge)).getD 0
          let tpair := phaseThresholds cfg phase
          let meetsThresholds :=
            (match signals.modelProb s with
             | some p => decide (tpair.1 ≤ p)
             | none => false) && decide (tpair.2 ≤ edgeV)
          if meetsThresholds then
            match tryOpenTrade cfg env marketSlug s res.sideInferred px phase st.ledger with
            | some newTrade =>
              { trader := { st1trader with openTrade := some newTrade }
                ledger := addTrade env.freshId env.nowIso newTrade st.ledger }
            | none => { trader := st1trader, ledger := st.ledger }
          else { trader := st1trader, ledger := st.ledger }
        else
          match st.trader.openTrade with
          | some trade =>
            processExit cfg env st1trader st.ledger trade marketSlug
              canEnter isTooLateToEnter isLowLiquidity isLowVolume
          | none => { trader := st1trader, ledger := st.ledger }

/-- `Trader.initialize()`: load the open trade from the ledger and
force-close it with zero pnl and a diagnostic reason when its entry price or
shares fail the positivity check. -/
def traderInitialize (nowIso : String) (ledger : Ledger) : TraderState × Ledger :=
  let st0 : EntryStatus := ⟨none, false, []⟩
  match getOpenTrade ledger with
  | none => (⟨none, 0, st0⟩, ledger)
  | some t =>
    if badEntryPrice t.entryPrice || badShares t.shares then
      let forced := { t with
        status := some TStatus.closed
        exitTime := some nowIso
        pnl := 0
        exitReason := some "Invalid Entry (sanity check)" }
      (⟨none, 0, st0⟩, updateTrade t.id forced ledger)
    else (⟨some t, 0, st0⟩, ledger)

/-! ## Concrete fixtures used by witnesses and counterexamples -/

/-- An empty ledger with a zeroed summary (the `loadLedger` default). -/
def emptyLedger : Ledger := { trades := [], summary := ⟨0, 0, 0, 0, 0⟩ }

/-- An indicator snapshot with every core field populated. -/
def indFull : Indicators where
  rsiNow := some 50
  vwapNow := some 100
  vwapSlope := some (1 / 10)
  macdHist := some 1
  heikenColor := some "green"
  heikenCount := some 3
  volumeRecent := none
  volumeAvg := none

/-- Signals for an entry tick: abstaining recommendation without a side,
model 70/30 for UP, UP quoted at 20¢. -/
def sigEntry : Signals where
  recOut := some ⟨"NO_TRADE", none, "EARLY", some (2 / 10)⟩
  timeLeftMin := 10
  marketSlug := some "m1"
  liquidityNum := some 100000
  spreadUp := some (1 / 100)
  spreadDown := some (1 / 100)
  polyUp := some (1 / 5)
  polyDown := some (2 / 5)
  modelUp := some (7 / 10)
  modelDown := some (3 / 10)
  indicators := indFull

/-- The entry tick's environment: warm indicators, fresh id 7. -/
def envEntry : TickEnv where
  signals := sigEntry
  candleCount := 30
  nowMs := 0
  nowIso := "2026-01-01T00:00:00Z"
  freshId := 7

/-- A flat trader over an empty ledger. -/
def stFlat : SysState := { trader := ⟨none, 0, ⟨none, false, []⟩⟩, ledger := emptyLedger }

/-- An open UP trade on market `m1`: 500 shares at 20¢ for a $100 notional. -/
def trUp : Trade where
  id := some 1
  timestamp := some "t"
  marketSlug := "m1"
  side := Side.up
  instrument := "POLY"
  entryPrice := some (JNum.fin (1 / 5))
  shares := some (JNum.fin 500)
  contractSize := 100
  status := some TStatus.opened
  entryTime := some "t"
  exitPrice := none
  exitTime := none
  pnl := 0
  entryPhase := some "EARLY"
  exitReason := none
  sideInferred := some false
  entryReason := none

/-- A second, equally valid open trade (id 2) used to break the
one-open-trade invariant by raw append. -/
def trUp2 : Trade := { trUp with id := some 2 }

/-- A ledger already holding the open trade `trUp`. -/
def ledOpen : Ledger := { trades := [trUp], summary := recalculateSummary [trUp] }

/-- A trader holding `trUp` over `ledOpen`. -/
def stOpen : SysState := { trader := ⟨some trUp, 0, ⟨none, false, []⟩⟩, ledger := ledOpen }

/-- Signals for a rollover tick: market slug changed to `m2` while `trUp`
(opened on `m1`) is held; UP still quoted at 30¢. -/
def sigRollover : Signals := { sigEntry with
  marketSlug := some "m2"
  recOut := some ⟨"NO_TRADE", some Side.up, "EARLY", some 0⟩
  polyUp := some (3 / 10)
  modelUp := some (1 / 2)
  modelDown := some (1 / 2) }

/-- Environment for the rollover tick. -/
def envRollover : TickEnv := { envEntry with signals := sigRollover }

/-- Signals for a deep-loss tick without a probability flip: UP quoted at
1¢ (mark-to-market −$95 on `trUp`) but the model still favors UP. -/
def sigDeepLoss : Signals := { sigEntry with
  recOut := some ⟨"NO_TRADE", some Side.up, "EARLY", some 0⟩
  polyUp := some (1 / 100)
  modelUp := some (6 / 10)
  modelDown := some (4 / 10) }

/-- Environment for the deep-loss tick. -/
def envDeepLoss : TickEnv := { envEntry with signals := sigDeepLoss }

/-- Scenario B's configuration: `exitFlipMinProb = 0.55`,
`exitFlipMargin = 0.05`, flip-on-flip disabled. -/
def cfgFlipExit : PaperConfig := { defaultPaperConfig with
  exitFlipMinProb := some (55 / 100)
  exitFlipMargin := some (5 / 100)
  flipOnProbabilityFlip := some false }

/-- Signals for scenario B: held UP with `modelUp = 0.40`,
`modelDown = 0.65`, UP quoted at 30¢. -/
def sigFlipExit : Signals := { sigEntry with
  recOut := some ⟨"NO_TRADE", some Side.up, "EARLY", some 0⟩
  polyUp := some (3 / 10)
  modelUp := some (2 / 5)
  modelDown := some (13 / 20) }

/-- Environment for scenario B. -/
def envFlipExit : TickEnv := { envEntry with signals := sigFlipExit }

/-- Signals with the recommended side's quote missing while the held side's
quote is available and the window is in its final seconds: the tick that
exposes the skipped exit evaluation. -/
def sigMissingPrice : Signals := { sigEntry with
  recOut := some ⟨"NO_TRADE", some Side.down, "EARLY", some 0⟩
  polyDown := none
  polyUp := some (3 / 10)
  timeLeftMin := 1 / 10 }

/-- Environment for the missing-price tick. -/
def envMissingPrice : TickEnv := { envEntry with signals := sigMissingPrice }

/-- An OPEN trade with a zero entry price, rejected by `addTrade`. -/
def trBadPrice : Trade := { trUp with id := some 3, entryPrice := some (JNum.fin 0) }

/-- The store (memory + disk) holding the empty ledger on both sides. -/
def store0 : Store := { mem := emptyLedger, disk := emptyLedger }

/-- The mutation a failing persistence is observed under: appending the
valid open trade `trUp`. -/
def c9Mutation : Ledger → Ledger := fun l => addTrade 5 "t5" trUp l


/-- Number of OPEN trades in a persisted trade collection. -/
def openCount (ts : List Trade) : ℕ := (ts.filter (fun t => t.isOpen)).length

/-- The coupled trader/ledger invariant actually maintained by the code: with
no in-memory open trade the ledger holds no OPEN record; with an in-memory
open trade the ledger holds exactly one OPEN record, and a record is OPEN
exactly when it carries the held trade's id. -/
def TradeInv (ot : Option Trade) (ts : List Trade) : Prop :=
  match ot with
  | none => openCount ts = 0
  | some t => openCount ts = 1 ∧ ∀ u ∈ ts, (u.isOpen = true ↔ u.id = t.id)

/-! ## Theorems -/

/-- `computeSessionVwap`'s loop on bars whose coerced volume is zero only
accumulates the typical-price sum and the count. -/
lemma vwap_foldl_zero_vol (cs : List Candle) (h : ∀ c ∈ cs, candleVol c = 0)
    (acc : VwapAcc) :
    cs.foldl vwapStep acc =
      ⟨acc.pv, acc.v, acc.tpSum + (cs.map typicalPrice).sum, acc.n + cs.length⟩ := by
  induction cs generalizing acc with
  | nil => simp
  | cons c cs ih =>
    have hc : candleVol c = 0 := h c (List.mem_cons_self c cs)
    have hcs : ∀ c ∈ cs, candleVol c = 0 := fun c hm => h c (List.mem_cons_of_mem _ hm)
    simp only [List.foldl_cons, ih hcs]
    simp [vwapStep, hc, List.length_cons]
    constructor
    · ring
    · omega

/-- C10: for every non-empty bar sequence with uniformly zero volume, the
session VWAP is exactly the unweighted arithmetic mean of the typical price
`(high + low + close) / 3`. -/
theorem c10_vwap_zero_volume (candles : List Candle) (hne : candles ≠ [])
    (hz : ∀ c ∈ candles, c.volume = some (JNum.fin 0)) :
    computeSessionVwap candles =
      some ((candles.map typicalPrice).sum / (candles.length : ℚ)) := by
  have hv : ∀ c ∈ candles, candleVol c = 0 := by
    intro c hc
    simp [candleVol, hz c hc]
  unfold computeSessionVwap
  rw [if_neg hne, vwap_foldl_zero_vol candles hv]
  have hlen : candles.length ≠ 0 := by
    simpa [List.length_eq_zero] using hne
  simp [hlen]

/-- Witness for C10, the repository's own test bars: two zero-volume bars
with typical prices 100 and 110 give VWAP exactly 105. -/
theorem c10_vwap_zero_volume_witness :
    computeSessionVwap
      [⟨110, 90, 100, some (JNum.fin 0)⟩, ⟨120, 100, 110, some (JNum.fin 0)⟩] =
      some 105 := by
  have h := c10_vwap_zero_volume
      [⟨110, 90, 100, some (JNum.fin 0)⟩, ⟨120, 100, 110, some (JNum.fin 0)⟩]
      (by decide) (by decide)
  rw [h]
  norm_num [typicalPrice]

/-- C8: `addTrade` rejects every trade whose status is OPEN (or absent,
defaulting to OPEN) and whose entry price is not a finite positive number or
whose shares field is set but not a finite positive number, leaving the
persisted trade collection and summary unchanged. -/
theorem c8_append_rejects_invalid (freshId : ℕ) (nowTs : String) (trade : Trade)
    (ledger : Ledger) (hopen : trade.status.getD TStatus.opened = TStatus.opened)
    (hbad : badEntryPrice trade.entryPrice = true ∨ badShares trade.shares = true) :
    addTrade freshId nowTs trade ledger = ledger := by
  have hcond : (decide ((trade.status.getD TStatus.opened) = TStatus.opened) &&
      (badEntryPrice trade.entryPrice || badShares trade.shares)) = true := by
    rcases hbad with h | h <;> simp [hopen, h]
  unfold addTrade
  simp only [hcond]
  rfl

/-- Witness for C8: an OPEN trade with entry price 0 is rejected and the
ledger is unchanged. -/
theorem c8_append_rejects_invalid_witness :
    trBadPrice.status.getD TStatus.opened = TStatus.opened ∧
    badEntryPrice trBadPrice.entryPrice = true ∧
    addTrade 9 "t9" trBadPrice ledOpen = ledOpen :=
  ⟨by decide, by decide,
   c8_append_rejects_invalid 9 "t9" trBadPrice ledOpen (by decide) (Or.inl (by decide))⟩

/-- Counterexample to C9: with a failing write, `updateLedger` surfaces no
error to its caller (the thrown error is caught and logged) and the
in-memory ledger has still advanced — the opposite of the claimed
"surfaced, and state unchanged on error" behavior. -/
theorem c9_io_failure_counterexample :
    (updateLedger false c9Mutation store0).2 = none ∧
    (updateLedger false c9Mutation store0).1.mem ≠ store0.mem ∧
    (updateLedger false c9Mutation store0).1.disk = store0.disk := by
  refine ⟨rfl, ?_, rfl⟩
  intro h
  have hlen := congrArg (fun l => l.trades.length) h
  simp [updateLedger, saveLedger, c9Mutation, addTrade, store0, emptyLedger, trUp,
    badEntryPrice, badShares] at hlen
  norm_num at hlen

/-- C9 as amended: a persistence failure during a mutating ledger operation
is swallowed (`none` is surfaced), the in-memory ledger advances regardless,
and only the on-disk contents stay behind until the next successful save. -/
theorem c9_io_failure_amended (writeOk : Bool) (updateFn : Ledger → Ledger) (st : Store) :
    updateLedger writeOk updateFn st =
      ({ mem := updateFn st.mem, disk := if writeOk then updateFn st.mem else st.disk }, none) := by
  cases writeOk <;> rfl

/-- `replaceFirst` preserves the length of the trade list. -/
lemma replaceFirst_length (tid : Option ℕ) (patched : Trade) (l : List Trade) :
    (replaceFirst tid patched l).length = l.length := by
  induction l with
  | nil => rfl
  | cons t ts ih =>
    unfold replaceFirst
    split
    · simp
    · simp [ih]

/-- `updateTrade` never changes the number of persisted trades. -/
lemma updateTrade_length (tid : Option ℕ) (patched : Trade) (l : Ledger) :
    (updateTrade tid patched l).trades.length = l.trades.length := by
  unfold updateTrade
  split
  · simp [replaceFirst_length]
  · rfl

/-- `recalculateSummary`'s loop accumulates exactly the pnl of CLOSED
trades. -/
lemma foldl_sumStep_totalPnL (ts : List Trade) (a : SumAcc) :
    (ts.foldl sumStep a).totalPnL =
      a.totalPnL + ((ts.filter (fun t => t.isClosed)).map (fun t => t.pnl)).sum := by
  induction ts generalizing a with
  | nil => simp
  | cons t ts ih =>
    simp only [List.foldl_cons, ih]
    by_cases hc : t.isClosed = true
    · simp [sumStep, hc]
      ring
    · simp [sumStep, hc]

/-- The recomputed summary's `totalPnL` is the sum of pnl over CLOSED trades
(mark-to-market of OPEN trades is excluded). -/
lemma recalculateSummary_totalPnL (ts : List Trade) :
    (recalculateSummary ts).totalPnL =
      ((ts.filter (fun t => t.isClosed)).map (fun t => t.pnl)).sum := by
  simp [recalculateSummary, foldl_sumStep_totalPnL]

/-- A positive computed position size requires a positive balance. -/
lemma balance_pos_of_size_pos (cfg : PaperConfig) (ledger : Ledger)
    (h : 0 < computeContractSizeUsd cfg ledger) : 0 < getBalance cfg ledger := by
  by_contra hb
  push_neg at hb
  unfold computeContractSizeUsd at h
  rw [if_pos hb] at h
  exact lt_irrefl 0 h

/-- With a positive stake percent and configured min/max notionals, the
computed size is the clamped, balance-capped stake, rounded down to cents. -/
lemma computeContractSizeUsd_formula (cfg : PaperConfig) (ledger : Ledger)
    (sp mn mx sb : ℚ)
    (hsp : cfg.stakePct = some sp) (hsp0 : 0 < sp)
    (hmn : cfg.minTradeUsd = some mn) (hmx : cfg.maxTradeUsd = some mx)
    (hsb : cfg.startingBalance = some sb)
    (hbal : 0 < getBalance cfg ledger) :
    computeContractSizeUsd cfg ledger =
      floorCents (min (max mn (min mx ((sb + ledger.summary.totalPnL) * sp)))
        (sb + ledger.summary.totalPnL)) := by
  have hb : getBalance cfg ledger = sb + ledger.summary.totalPnL := by
    simp [getBalance, hsb]
  unfold computeContractSizeUsd
  rw [if_neg (not_le.mpr hbal)]
  simp [hsp, hsp0, hmn, hmx, hb]

/-- On the empty ledger with the shipped defaults the computed size is
exactly $100 (10% of the $1000 starting balance, inside the clamp). -/
lemma computeContractSizeUsd_default :
    computeContractSizeUsd defaultPaperConfig stFlat.ledger = 100 := by
  rw [computeContractSizeUsd_formula defaultPaperConfig stFlat.ledger
    (1 / 10) 25 250 1000 rfl (by norm_num) rfl rfl rfl
    (by simp [getBalance, defaultPaperConfig, stFlat, emptyLedger])]
  show floorCents (min (max 25 (min 250 ((1000 + (0 : ℚ)) * (1 / 10)))) (1000 + 0)) = 100
  norm_num [floorCents]

/-- `toFixed(2)` is the identity on whole-cent amounts. -/
lemma round2_cents (k : ℤ) : round2 ((k : ℚ) / 100) = (k : ℚ) / 100 := by
  unfold round2
  rw [div_mul_cancel₀ _ (by norm_num : (100 : ℚ) ≠ 0)]
  rw [Int.floor_int_add]
  norm_num

/-- The probability-flip condition holds when the opposing probability clears
the minimum and the margin over the held probability. -/
lemma opposing_of (cfg : PaperConfig) (signals : Signals) (side : Side) (hq oq : ℚ)
    (h1 : signals.modelProb side = some hq)
    (h2 : signals.modelProb side.other = some oq)
    (h3 : cfg.exitFlipMinProb.getD (55 / 100) ≤ oq)
    (h4 : hq + cfg.exitFlipMargin.getD (3 / 100) ≤ oq) :
    opposingMoreLikely cfg signals side = true := by
  cases side <;>
    simp [Signals.modelProb, Side.other] at h1 h2 <;>
    simp [opposingMoreLikely, h1, h2, h3, h4]

/-- No exit rule fires when the flip condition is false and the end of the
window has not been reached (the conditional stop loss cannot fire alone). -/
lemma exitDecision_none (cfg : PaperConfig) (env : TickEnv) (lfm : ℚ) (trade : Trade)
    (canEnter isTooLateToEnter : Bool)
    (hFlip : opposingMoreLikely cfg env.signals trade.side = false)
    (hnotlt : ¬(env.signals.timeLeftMin < 1 / 2)) :
    exitDecision cfg env lfm trade canEnter isTooLateToEnter = ⟨false, "", false⟩ := by
  have h2 : decide (env.signals.timeLeftMin < 1 / 2) = false := decide_eq_false hnotlt
  simp [exitDecision, hFlip, h2]
  linarith [not_lt.mp hnotlt]

/-- A probability flip with flip-on-flip disabled decides a plain
"Probability Flip" exit. -/
lemma exitDecision_probFlip_noflip (cfg : PaperConfig) (env : TickEnv) (lfm : ℚ)
    (trade : Trade) (canEnter isTooLateToEnter : Bool)
    (hOpp : opposingMoreLikely cfg env.signals trade.side = true)
    (hfe : cfg.flipOnProbabilityFlip.getD true = false) :
    exitDecision cfg env lfm trade canEnter isTooLateToEnter =
      ⟨true, "Probability Flip", false⟩ := by
  simp [exitDecision, hOpp, hfe]

/-- The exit branch leaves the trade and ledger untouched when neither the
rollover guard nor any exit rule fires. -/
lemma processExit_noop (cfg : PaperConfig) (env : TickEnv) (st1 : TraderState)
    (ledger : Ledger) (trade : Trade) (marketSlug : String)
    (canEnter isTooLateToEnter isLowLiquidity isLowVolume : Bool)
    (hslug : (decide (trade.marketSlug ≠ "") && decide (marketSlug ≠ "") &&
      decide (trade.marketSlug ≠ marketSlug)) = false)
    (hdec : (exitDecision cfg env st1.lastFlipAtMs trade canEnter isTooLateToEnter).shouldExit
      = false) :
    processExit cfg env st1 ledger trade marketSlug canEnter isTooLateToEnter
      isLowLiquidity isLowVolume = ⟨st1, ledger⟩ := by
  unfold processExit
  rw [hslug]
  simp only [Bool.false_eq_true, if_false, hdec]

/-- The exit branch force-closes on a market rollover at the held side's
current quote. -/
lemma processExit_rollover (cfg : PaperConfig) (env : TickEnv) (st1 : TraderState)
    (ledger : Ledger) (trade : Trade) (marketSlug : String)
    (canEnter isTooLateToEnter isLowLiquidity isLowVolume : Bool) (p : ℚ)
    (hslug : (decide (trade.marketSlug ≠ "") && decide (marketSlug ≠ "") &&
      decide (trade.marketSlug ≠ marketSlug)) = true)
    (hpx : env.signals.polyPrice trade.side = some p) :
    processExit cfg env st1 ledger trade marketSlug canEnter isTooLateToEnter
      isLowLiquidity isLowVolume =
      ⟨{ st1 with openTrade := none },
       updateTrade trade.id (closedRecord env.nowIso trade p "Market Rollover") ledger⟩ := by
  unfold processExit
  rw [hslug]
  simp only [reduceIte, hpx]

/-- The exit branch closes at the held side's quote (no flip-open) when the
exit rules decide `(true, reason, false)`. -/
lemma processExit_close_noflip (cfg : PaperConfig) (env : TickEnv) (st1 : TraderState)
    (ledger : Ledger) (trade : Trade) (marketSlug : String)
    (canEnter isTooLateToEnter isLowLiquidity isLowVolume : Bool) (p : ℚ) (reason : String)
    (hslug : (decide (trade.marketSlug ≠ "") && decide (marketSlug ≠ "") &&
      decide (trade.marketSlug ≠ marketSlug)) = false)
    (hdec : exitDecision cfg env st1.lastFlipAtMs trade canEnter isTooLateToEnter =
      ⟨true, reason, false⟩)
    (hpx : env.signals.polyPrice trade.side = some p) :
    processExit cfg env st1 ledger trade marketSlug canEnter isTooLateToEnter
      isLowLiquidity isLowVolume =
      ⟨{ st1 with openTrade := none },
       updateTrade trade.id (closedRecord env.nowIso trade p reason) ledger⟩ := by
  unfold processExit
  rw [hslug]
  simp only [Bool.false_eq_true, if_false, hdec, hpx]
  simp

/-- The entry path succeeds exactly with the literal trade record: sanity
bounds passed, positive computed size, shares = size / price. -/
lemma tryOpenTrade_some (cfg : PaperConfig) (env : TickEnv) (marketSlug : String) (s : Side)
    (sideInferred : Bool) (px : ℚ) (phase : String) (ledger : Ledger)
    (h1 : ¬(px < cfg.minPolyPrice.getD (1 / 1000)))
    (h2 : ¬(cfg.maxPolyPrice.getD (999 / 1000) < px))
    (h3 : 0 < computeContractSizeUsd cfg ledger)
    (h4 : 0 < px) :
    tryOpenTrade cfg env marketSlug s sideInferred px phase ledger =
      some (entryRecord env marketSlug s sideInferred px
        (computeContractSizeUsd cfg ledger / px) (computeContractSizeUsd cfg ledger) phase) := by
  have b1 : decide (px < cfg.minPolyPrice.getD (1 / 1000)) = false := decide_eq_false h1
  have b2 : decide (cfg.maxPolyPrice.getD (999 / 1000) < px) = false := decide_eq_false h2
  have b3 : decide (computeContractSizeUsd cfg ledger ≤ 0) = false :=
    decide_eq_false (not_le.mpr h3)
  have b4 : decide (0 < px) = true := decide_eq_true h4
  have b5 : decide (computeContractSizeUsd cfg ledger / px ≤ 0) = false :=
    decide_eq_false (not_le.mpr (div_pos h3 h4))
  simp [tryOpenTrade, b1, b2, b3, b4, b5]
  linarith [not_lt.mp h1]

/-- Inversion of a successful entry: the price and computed size are
positive and the produced trade is the literal entry record. -/
lemma tryOpenTrade_inv (cfg : PaperConfig) (env : TickEnv) (marketSlug : String) (s : Side)
    (sideInferred : Bool) (px : ℚ) (phase : String) (ledger : Ledger) (t : Trade)
    (h : tryOpenTrade cfg env marketSlug s sideInferred px phase ledger = some t) :
    0 < px ∧ 0 < computeContractSizeUsd cfg ledger ∧
    t = entryRecord env marketSlug s sideInferred px
      (computeContractSizeUsd cfg ledger / px) (computeContractSizeUsd cfg ledger) phase := by
  unfold tryOpenTrade at h
  cases hb : (decide (px < cfg.minPolyPrice.getD (1 / 1000)) ||
      decide (cfg.maxPolyPrice.getD (999 / 1000) < px)) with
  | true =>
    simp only [hb, if_true] at h
    exact absurd h (by simp)
  | false =>
    simp only [hb, Bool.false_eq_true, if_false] at h
    cases hsz : decide (computeContractSizeUsd cfg ledger ≤ 0) with
    | true =>
      simp only [hsz, if_true] at h
      exact absurd h (by simp)
    | false =>
      simp only [hsz, Bool.false_eq_true, if_false] at h
      cases hp : decide ((0 : ℚ) < px) with
      | true =>
        simp only [hp, if_true] at h
        cases hsh : decide (computeContractSizeUsd cfg ledger / px ≤ 0) with
        | true =>
          simp only [hsh, if_true] at h
          exact absurd h (by simp)
        | false =>
          simp only [hsh, Bool.false_eq_true, if_false, Option.some.injEq] at h
          exact ⟨of_decide_eq_true hp, lt_of_not_le (of_decide_eq_false hsz), h.symm⟩
      | false =>
        simp only [hp, Bool.false_eq_true, if_false] at h
        exact absurd h (by simp)

/-- A trade with its id, timestamp and OPEN status already set, passing the
positivity check, is appended verbatim (the normalization is the identity). -/
lemma addTrade_append (freshId : ℕ) (nowTs : String) (t : Trade) (ledger : Ledger)
    (i : ℕ) (ts0 : String)
    (hid : t.id = some i) (hts : t.timestamp = some ts0)
    (hst : t.status = some TStatus.opened)
    (hep : badEntryPrice t.entryPrice = false) (hsh : badShares t.shares = false) :
    addTrade freshId nowTs t ledger =
      { trades := ledger.trades ++ [t],
        summary := recalculateSummary (ledger.trades ++ [t]) } := by
  unfold addTrade
  simp only [hst, hep, hsh, hid, hts, Option.getD_some, Bool.or_false, Bool.and_false,
    decide_eq_true_eq, Bool.false_eq_true, if_false, reduceIte]
  cases t
  simp_all

/-- In loose rec-gating mode, with every entry gate passing and the
thresholds met, the tick opens an UP trade inferred from the larger model
probability and appends it to the ledger. -/
lemma looseEntryOpens (cfg : PaperConfig) (env : TickEnv) (st : SysState)
    (r : RecOut) (u d px : ℚ)
    (hE : cfg.enabled = true)
    (hLoose : cfg.recGating = "loose")
    (hOpen : st.trader.openTrade = none)
    (hRec : env.signals.recOut = some r)
    (hNoSide : r.side = none)
    (hUp : env.signals.modelUp = some u)
    (hDn : env.signals.modelDown = some d)
    (hud : d < u)
    (hPx : env.signals.polyUp = some px)
    (hWarm : cfg.minCandlesForEntry.getD 30 ≤ env.candleCount)
    (hInd : indicatorsPopulated env.signals.indicators = true)
    (hLate : ¬(env.signals.timeLeftMin < cfg.noEntryFinalMinutes))
    (hLiq : lowLiquidity cfg env.signals = false)
    (hVol : lowVolume cfg env.signals = false)
    (hprob : (phaseThresholds cfg r.phase).1 ≤ u)
    (hedge : (phaseThresholds cfg r.phase).2 ≤ r.edge.getD 0)
    (hpx1 : ¬(px < cfg.minPolyPrice.getD (1 / 1000)))
    (hpx2 : ¬(cfg.maxPolyPrice.getD (999 / 1000) < px))
    (hpxpos : 0 < px)
    (hsize : 0 < computeContractSizeUsd cfg st.ledger) :
    ∃ t : Trade,
      (processSignals cfg env st).trader.openTrade = some t ∧
      t.side = Side.up ∧
      t.sideInferred = some true ∧
      (processSignals cfg env st).ledger.trades = st.ledger.trades ++ [t] := by
  have hstrict : strictRecOf cfg = false := by
    simp [strictRecOf, recGatingOf, hLoose]
  have hdu : d ≤ u := le_of_lt hud
  have bWarm : decide (cfg.minCandlesForEntry.getD 30 ≤ env.candleCount) = true :=
    decide_eq_true hWarm
  have bLate : decide (env.signals.timeLeftMin < cfg.noEntryFinalMinutes) = false :=
    decide_eq_false hLate
  have bprob : decide ((phaseThresholds cfg r.phase).1 ≤ u) = true := decide_eq_true hprob
  have bedge : decide ((phaseThresholds cfg r.phase).2 ≤ r.edge.getD 0) = true :=
    decide_eq_true hedge
  unfold processSignals
  simp only [hE, hOpen, hRec, hNoSide, hstrict, hUp, hDn, hPx, Option.some_bind,
    Option.isNone_none, Option.isNone_some, Bool.not_true, Bool.not_false, Bool.and_false,
    Bool.false_and, Bool.and_true, Bool.true_and, Bool.or_true, Bool.false_eq_true, if_false,
    reduceIte, resolveSide, hdu, if_true, Signals.polyPrice, Signals.modelProb,
    Option.map_some', Option.getD_some, bWarm, bLate, hInd, hLiq, hVol, bprob, bedge]
  rw [tryOpenTrade_some cfg env _ _ _ _ _ _ hpx1 hpx2 hsize hpxpos]
  refine ⟨_, rfl, rfl, rfl, ?_⟩
  show (addTrade env.freshId env.nowIso
      (entryRecord env (marketSlugOf env.signals) Side.up true px
        (computeContractSizeUsd cfg st.ledger / px) (computeContractSizeUsd cfg st.ledger)
        r.phase) st.ledger).trades = _
  rw [addTrade_append env.freshId env.nowIso _ _ env.freshId env.nowIso rfl rfl rfl
    (by simp [entryRecord, badEntryPrice]; exact hpxpos)
    (by simp [entryRecord, badShares]; exact div_pos hsize hpxpos)]

/-- Scenario A / scenario D's tick evaluated: the entry opens an UP trade
with `sideInferred = true` appended to the empty ledger. -/
lemma scenarioA_run :
    ∃ t : Trade,
      (processSignals defaultPaperConfig envEntry stFlat).trader.openTrade = some t ∧
      t.side = Side.up ∧
      t.sideInferred = some true ∧
      (processSignals defaultPaperConfig envEntry stFlat).ledger.trades =
        stFlat.ledger.trades ++ [t] :=
  looseEntryOpens defaultPaperConfig envEntry stFlat
    ⟨"NO_TRADE", none, "EARLY", some (2 / 10)⟩ (7 / 10) (3 / 10) (1 / 5)
    rfl rfl rfl rfl rfl rfl rfl (by norm_num) rfl
    (by norm_num [defaultPaperConfig, envEntry]) (by decide)
    (by norm_num [sigEntry, envEntry, defaultPaperConfig])
    (by simp [lowLiquidity, envEntry, sigEntry, defaultPaperConfig]; norm_num)
    (by simp [lowVolume, envEntry, sigEntry, defaultPaperConfig])
    (by norm_num [phaseThresholds, defaultPaperConfig])
    (by norm_num [phaseThresholds, defaultPaperConfig])
    (by norm_num [defaultPaperConfig]) (by norm_num [defaultPaperConfig])
    (by norm_num)
    (by rw [computeContractSizeUsd_default]; norm_num)

/-- C3: on every evaluated tick holding an OPEN trade whose market identifier
differs from the current tick's (both non-empty), the trade is force-closed
with the rollover reason (spelled "Market Rollover" in the code) at the held
side's current quote, the state returns to FLAT, and no trade is appended in
the same tick — with the model probabilities left fully unconstrained. -/
theorem c3_rollover_forces_close (cfg : PaperConfig) (env : TickEnv) (st : SysState)
    (tr : Trade) (r : RecOut) (s0 : Side) (q0 : ℚ) (sl : String) (p : ℚ)
    (hE : cfg.enabled = true)
    (hOpen : st.trader.openTrade = some tr)
    (hRec : env.signals.recOut = some r)
    (hSide : r.side = some s0)
    (hPx0 : env.signals.polyPrice s0 = some q0)
    (hSlugCur : env.signals.marketSlug = some sl)
    (hslne : sl ≠ "")
    (htrne : tr.marketSlug ≠ "")
    (hdiff : tr.marketSlug ≠ sl)
    (hPxHeld : env.signals.polyPrice tr.side = some p) :
    (processSignals cfg env st).trader.openTrade = none ∧
    (processSignals cfg env st).ledger =
      updateTrade tr.id (closedRecord env.nowIso tr p "Market Rollover") st.ledger ∧
    (closedRecord env.nowIso tr p "Market Rollover").status = some TStatus.closed ∧
    (closedRecord env.nowIso tr p "Market Rollover").exitReason = some "Market Rollover" ∧
    (closedRecord env.nowIso tr p "Market Rollover").exitPrice = some p ∧
    (processSignals cfg env st).ledger.trades.length = st.ledger.trades.length := by
  have hms : marketSlugOf env.signals = sl := by
    simp [marketSlugOf, hSlugCur, hslne]
  unfold processSignals
  simp only [hE, hOpen, hRec, hSide, hPx0, resolveSide, Option.some_bind, Option.isNone_some,
    Bool.not_true, Bool.false_and, Bool.and_false, Bool.false_eq_true, if_false,
    Option.isSome_some, reduceIte]
  rw [processExit_rollover _ _ _ _ _ _ _ _ _ _ p (by simp [hms, htrne, hslne, hdiff]) hPxHeld]
  refine ⟨rfl, rfl, rfl, rfl, rfl, ?_⟩
  simp [updateTrade_length]

/-- Witness for C3: while holding `trUp` (opened on `m1`) the slug rolls to
`m2`; the tick closes the trade with reason "Market Rollover" at the held
side's 30¢ quote, returns to FLAT and appends nothing. -/
theorem c3_rollover_forces_close_witness :
    trUp.marketSlug ≠ "m2" ∧
    ((processSignals defaultPaperConfig envRollover stOpen).trader.openTrade = none ∧
     (processSignals defaultPaperConfig envRollover stOpen).ledger =
       updateTrade trUp.id
         (closedRecord envRollover.nowIso trUp (3 / 10) "Market Rollover") stOpen.ledger ∧
     (closedRecord envRollover.nowIso trUp (3 / 10) "Market Rollover").status =
       some TStatus.closed ∧
     (closedRecord envRollover.nowIso trUp (3 / 10) "Market Rollover").exitReason =
       some "Market Rollover" ∧
     (closedRecord envRollover.nowIso trUp (3 / 10) "Market Rollover").exitPrice =
       some (3 / 10) ∧
     (processSignals defaultPaperConfig envRollover stOpen).ledger.trades.length =
       stOpen.ledger.trades.length) :=
  ⟨by decide,
   c3_rollover_forces_close defaultPaperConfig envRollover stOpen trUp
     ⟨"NO_TRADE", some Side.up, "EARLY", some 0⟩ Side.up (3 / 10) "m2" (3 / 10)
     rfl rfl rfl rfl rfl rfl (by decide) (by decide) (by decide) rfl⟩

/-- C4: the stop loss never fires in isolation — on an evaluated tick with an
OPEN trade, an unchanged market identifier, a false probability-flip
condition and at least 30 seconds remaining, the trade stays OPEN and the
ledger untouched, even when the mark-to-market loss exceeds
`contractSize × stopLossPct`. -/
theorem c4_stop_loss_never_alone (cfg : PaperConfig) (env : TickEnv) (st : SysState)
    (tr : Trade) (r : RecOut) (s0 : Side) (q0 : ℚ)
    (hE : cfg.enabled = true)
    (hOpen : st.trader.openTrade = some tr)
    (hRec : env.signals.recOut = some r)
    (hSide : r.side = some s0)
    (hPx : env.signals.polyPrice s0 = some q0)
    (hSlug : env.signals.marketSlug = some tr.marketSlug)
    (hSlugNe : tr.marketSlug ≠ "")
    (hLoss : stopLossHit cfg env.signals tr = true)
    (hFlip : opposingMoreLikely cfg env.signals tr.side = false)
    (hTime : 1 / 2 ≤ env.signals.timeLeftMin) :
    (processSignals cfg env st).trader.openTrade = some tr ∧
    (processSignals cfg env st).ledger = st.ledger := by
  have hnotlt : ¬(env.signals.timeLeftMin < 1 / 2) := not_lt.mpr hTime
  have hms : marketSlugOf env.signals = tr.marketSlug := by
    simp [marketSlugOf, hSlug, hSlugNe]
  unfold processSignals
  simp only [hE, hOpen, hRec, hSide, hPx, resolveSide, Option.some_bind, Option.isNone_some,
    Bool.not_true, Bool.false_and, Bool.and_false, Bool.false_eq_true, if_false,
    Option.isSome_some, reduceIte]
  rw [processExit_noop _ _ _ _ _ _ _ _ _ _ (by simp [hms])
    (exitDecision_none _ _ _ _ _ _ hFlip hnotlt ▸ rfl)]
  exact ⟨rfl, rfl⟩

/-- Witness for C4: `trUp` marks at 1¢ (mark-to-market −$95, far beyond the
20% stop), the model still favors UP, 10 minutes remain — the trade stays
OPEN and the ledger untouched. -/
theorem c4_stop_loss_never_alone_witness :
    stopLossHit defaultPaperConfig sigDeepLoss trUp = true ∧
    opposingMoreLikely defaultPaperConfig sigDeepLoss trUp.side = false ∧
    ((processSignals defaultPaperConfig envDeepLoss stOpen).trader.openTrade = some trUp ∧
     (processSignals defaultPaperConfig envDeepLoss stOpen).ledger = stOpen.ledger) := by
  have h1 : stopLossHit defaultPaperConfig sigDeepLoss trUp = true := by
    simp [stopLossHit, heldShares, defaultPaperConfig, sigDeepLoss, sigEntry, trUp,
      Signals.polyPrice]
    norm_num
  have h2 : opposingMoreLikely defaultPaperConfig sigDeepLoss trUp.side = false := by
    simp [opposingMoreLikely, defaultPaperConfig, sigDeepLoss, sigEntry, trUp]
    norm_num
  exact ⟨h1, h2,
    c4_stop_loss_never_alone defaultPaperConfig envDeepLoss stOpen trUp
      ⟨"NO_TRADE", some Side.up, "EARLY", some 0⟩ Side.up (1 / 100)
      rfl rfl rfl rfl rfl rfl (by decide) h1 h2
      (by norm_num [envDeepLoss, envEntry, sigDeepLoss, sigEntry])⟩

/-- C5: on an evaluated tick holding an OPEN trade, when the opposing
probability clears `exitFlipMinProb` and exceeds the held probability by
`exitFlipMargin`, the trade closes with reason "Probability Flip" at the held
side's current quote; the recorded pnl is `shares × exitPrice − notional`
rounded to cents (and exactly `shares × exitPrice − notional` whenever that
amount is a whole number of cents). -/
theorem c5_probability_flip_exit (cfg : PaperConfig) (env : TickEnv) (st : SysState)
    (tr : Trade) (r : RecOut) (s0 : Side) (q0 sh p hq oq : ℚ)
    (hE : cfg.enabled = true)
    (hOpen : st.trader.openTrade = some tr)
    (hRec : env.signals.recOut = some r)
    (hSide : r.side = some s0)
    (hPx0 : env.signals.polyPrice s0 = some q0)
    (hSlugCur : env.signals.marketSlug = some tr.marketSlug)
    (htrne : tr.marketSlug ≠ "")
    (hSh : tr.shares = some (JNum.fin sh))
    (hHeld : env.signals.modelProb tr.side = some hq)
    (hOppP : env.signals.modelProb tr.side.other = some oq)
    (h3 : cfg.exitFlipMinProb.getD (55 / 100) ≤ oq)
    (h4 : hq + cfg.exitFlipMargin.getD (3 / 100) ≤ oq)
    (hfe : cfg.flipOnProbabilityFlip.getD true = false)
    (hPxHeld : env.signals.polyPrice tr.side = some p) :
    (processSignals cfg env st).trader.openTrade = none ∧
    (processSignals cfg env st).ledger =
      updateTrade tr.id (closedRecord env.nowIso tr p "Probability Flip") st.ledger ∧
    (closedRecord env.nowIso tr p "Probability Flip").exitReason = some "Probability Flip" ∧
    (closedRecord env.nowIso tr p "Probability Flip").exitPrice = some p ∧
    (closedRecord env.nowIso tr p "Probability Flip").pnl =
      round2 (sh * p - tr.contractSize) ∧
    (∀ k : ℤ, sh * p - tr.contractSize = (k : ℚ) / 100 →
      (closedRecord env.nowIso tr p "Probability Flip").pnl = sh * p - tr.contractSize) := by
  have hms : marketSlugOf env.signals = tr.marketSlug := by
    simp [marketSlugOf, hSlugCur, htrne]
  have hpnl : (closedRecord env.nowIso tr p "Probability Flip").pnl =
      round2 (sh * p - tr.contractSize) := by
    simp [closedRecord, heldShares, hSh]
  unfold processSignals
  simp only [hE, hOpen, hRec, hSide, hPx0, resolveSide, Option.some_bind, Option.isNone_some,
    Bool.not_true, Bool.false_and, Bool.and_false, Bool.false_eq_true, if_false,
    Option.isSome_some, reduceIte]
  rw [processExit_close_noflip _ _ _ _ _ _ _ _ _ _ p "Probability Flip" (by simp [hms])
    (exitDecision_probFlip_noflip _ _ _ _ _ _ (opposing_of _ _ _ _ _ hHeld hOppP h3 h4) hfe)
    hPxHeld]
  refine ⟨rfl, rfl, rfl, rfl, hpnl, ?_⟩
  intro k hk
  rw [hpnl, hk, round2_cents]

/-- Witness for C5, end-to-end scenario B: held UP with `modelUp = 0.40`,
`modelDown = 0.65`, `exitFlipMinProb = 0.55`, margin `0.05`; the flip exit
fires, the exit price is the UP quote 30¢, and pnl = 500 × 0.3 − 100 = $50
exactly. -/
theorem c5_probability_flip_exit_witness :
    (55 : ℚ) / 100 ≤ 13 / 20 ∧ (2 : ℚ) / 5 + 5 / 100 ≤ 13 / 20 ∧
    ((processSignals cfgFlipExit envFlipExit stOpen).trader.openTrade = none ∧
     (processSignals cfgFlipExit envFlipExit stOpen).ledger =
       updateTrade trUp.id
         (closedRecord envFlipExit.nowIso trUp (3 / 10) "Probability Flip") stOpen.ledger ∧
     (closedRecord envFlipExit.nowIso trUp (3 / 10) "Probability Flip").pnl = 50) := by
  have h := c5_probability_flip_exit cfgFlipExit envFlipExit stOpen trUp
    ⟨"NO_TRADE", some Side.up, "EARLY", some 0⟩ Side.up (3 / 10) 500 (3 / 10) (2 / 5) (13 / 20)
    rfl rfl rfl rfl rfl rfl (by decide) rfl rfl rfl (by norm_num [cfgFlipExit])
    (by norm_num [cfgFlipExit]) rfl rfl
  refine ⟨by norm_num, by norm_num, h.1, h.2.1, ?_⟩
  have h50 := h.2.2.2.2.2 5000 (by norm_num [trUp])
  rw [h50]
  norm_num [trUp]

/-- Counterexample to C7: an OPEN UP trade, the recommendation pointing at
DOWN whose quote is missing, the UP quote available and under 30 seconds
left — the end-of-window exit should fire per the claim, yet the tick leaves
the trade OPEN and the ledger untouched: the missing price for the
recommended side did prevent exit evaluation. -/
theorem c7_missing_data_counterexample :
    stOpen.trader.openTrade = some trUp ∧
    sigMissingPrice.timeLeftMin < 1 / 2 ∧
    sigMissingPrice.polyPrice trUp.side = some (3 / 10) ∧
    (processSignals defaultPaperConfig envMissingPrice stOpen).trader.openTrade = some trUp ∧
    (processSignals defaultPaperConfig envMissingPrice stOpen).ledger = stOpen.ledger := by
  refine ⟨rfl, by norm_num [sigMissingPrice, sigEntry], rfl, ?_, ?_⟩ <;> rfl

/-- C7 as amended: when the tick's side (recommended, or inferred in loose
mode) is missing, or the quote for that side is missing, the tick returns
early — no entry is opened and no exit rule is evaluated either; only the
entry-debug record changes. Exits are evaluated only on ticks that resolve a
side and its quote. -/
theorem c7_missing_data_amended (cfg : PaperConfig) (env : TickEnv) (st : SysState)
    (hE : cfg.enabled = true)
    (hmiss : (resolveSide (strictRecOf cfg) env.signals).side = none ∨
      ∃ s, (resolveSide (strictRecOf cfg) env.signals).side = some s ∧
        env.signals.polyPrice s = none) :
    (processSignals cfg env st).trader.openTrade = st.trader.openTrade ∧
    (processSignals cfg env st).ledger = st.ledger := by
  suffices h : ∃ es, processSignals cfg env st =
      { st with trader := { st.trader with lastEntryStatus := es } } by
    rcases h with ⟨es, he⟩
    rw [he]
    exact ⟨rfl, rfl⟩
  unfold processSignals
  simp only [hE, Bool.not_true, Bool.false_eq_true, if_false]
  split
  · exact ⟨_, rfl⟩
  · rcases hmiss with hnone | ⟨s, hs, hpn⟩
    · simp only [hnone]
      exact ⟨_, rfl⟩
    · simp only [hs, Option.some_bind, hpn]
      exact ⟨_, rfl⟩

/-- Witness for the amended C7, at the counterexample's tick: the DOWN quote
is missing, so the state machine changes neither the open trade nor the
ledger. -/
theorem c7_missing_data_amended_witness :
    (resolveSide (strictRecOf defaultPaperConfig) sigMissingPrice).side = some Side.down ∧
    sigMissingPrice.polyPrice Side.down = none ∧
    (processSignals defaultPaperConfig envMissingPrice stOpen).trader.openTrade =
      stOpen.trader.openTrade ∧
    (processSignals defaultPaperConfig envMissingPrice stOpen).ledger = stOpen.ledger :=
  ⟨rfl, rfl,
   (c7_missing_data_amended defaultPaperConfig envMissingPrice stOpen rfl
     (Or.inr ⟨Side.down, rfl, rfl⟩)).1,
   (c7_missing_data_amended defaultPaperConfig envMissingPrice stOpen rfl
     (Or.inr ⟨Side.down, rfl, rfl⟩)).2⟩

/-- C2: in loose rec-gating mode, with all other entry gates passing and the
probability/edge thresholds met, the state machine opens a trade even though
the Recommendation's action is not ENTER and it provides no side: the side
is inferred from the larger model probability (UP when `modelDown < modelUp`)
and the trade is recorded with `sideInferred = true`. -/
theorem c2_loose_gating_infers_side (cfg : PaperConfig) (env : TickEnv) (st : SysState)
    (r : RecOut) (u d px : ℚ)
    (hE : cfg.enabled = true)
    (hLoose : cfg.recGating = "loose")
    (hOpen : st.trader.openTrade = none)
    (hRec : env.signals.recOut = some r)
    (hNoSide : r.side = none)
    (hNotEnter : r.action ≠ "ENTER")
    (hUp : env.signals.modelUp = some u)
    (hDn : env.signals.modelDown = some d)
    (hud : d < u)
    (hPx : env.signals.polyUp = some px)
    (hWarm : cfg.minCandlesForEntry.getD 30 ≤ env.candleCount)
    (hInd : indicatorsPopulated env.signals.indicators = true)
    (hLate : ¬(env.signals.timeLeftMin < cfg.noEntryFinalMinutes))
    (hLiq : lowLiquidity cfg env.signals = false)
    (hVol : lowVolume cfg env.signals = false)
    (hprob : (phaseThresholds cfg r.phase).1 ≤ u)
    (hedge : (phaseThresholds cfg r.phase).2 ≤ r.edge.getD 0)
    (hpx1 : ¬(px < cfg.minPolyPrice.getD (1 / 1000)))
    (hpx2 : ¬(cfg.maxPolyPrice.getD (999 / 1000) < px))
    (hpxpos : 0 < px)
    (hsize : 0 < computeContractSizeUsd cfg st.ledger) :
    ∃ t : Trade,
      (processSignals cfg env st).trader.openTrade = some t ∧
      t.side = Side.up ∧
      t.sideInferred = some true ∧
      (processSignals cfg env st).ledger.trades = st.ledger.trades ++ [t] :=
  looseEntryOpens cfg env st r u d px hE hLoose hOpen hRec hNoSide hUp hDn hud hPx
    hWarm hInd hLate hLiq hVol hprob hedge hpx1 hpx2 hpxpos hsize

/-- Witness for C2, end-to-end scenario D: loose gating, the recommendation
says NO_TRADE with no side, `modelUp = 0.7 > modelDown = 0.3` — the tick
opens an UP trade recorded with `sideInferred = true`. -/
theorem c2_loose_gating_infers_side_witness :
    defaultPaperConfig.recGating = "loose" ∧
    sigEntry.recOut = some ⟨"NO_TRADE", none, "EARLY", some (2 / 10)⟩ ∧
    ∃ t : Trade,
      (processSignals defaultPaperConfig envEntry stFlat).trader.openTrade = some t ∧
      t.side = Side.up ∧
      t.sideInferred = some true ∧
      (processSignals defaultPaperConfig envEntry stFlat).ledger.trades =
        stFlat.ledger.trades ++ [t] :=
  ⟨rfl, rfl,
   c2_loose_gating_infers_side defaultPaperConfig envEntry stFlat
     ⟨"NO_TRADE", none, "EARLY", some (2 / 10)⟩ (7 / 10) (3 / 10) (1 / 5)
     rfl rfl rfl rfl rfl (by decide) rfl rfl (by norm_num) rfl
     (by norm_num [defaultPaperConfig, envEntry]) (by decide)
     (by norm_num [sigEntry, envEntry, defaultPaperConfig])
     (by simp [lowLiquidity, envEntry, sigEntry, defaultPaperConfig]; norm_num)
     (by simp [lowVolume, envEntry, sigEntry, defaultPaperConfig])
     (by norm_num [phaseThresholds, defaultPaperConfig])
     (by norm_num [phaseThresholds, defaultPaperConfig])
     (by norm_num [defaultPaperConfig]) (by norm_num [defaultPaperConfig])
     (by norm_num)
     (by rw [computeContractSizeUsd_default]; norm_num)⟩

/-- C1: whatever entry the state machine takes from a FLAT state, the opened
trade's notional is `clamp(balance × stakePct, minTradeUsd, maxTradeUsd)`,
further capped at the available balance and rounded down to the smallest
currency unit, where balance = starting balance + the ledger's realized PnL
(the sum of pnl over CLOSED trades only); its entry price is the current
quote of its side and its shares are `notional / entryPrice`. -/
theorem c1_position_sizing (cfg : PaperConfig) (env : TickEnv) (st : SysState) (t : Trade)
    (sp mn mx sb : ℚ)
    (hOpen : st.trader.openTrade = none)
    (hsp : cfg.stakePct = some sp) (hsp0 : 0 < sp)
    (hmn : cfg.minTradeUsd = some mn) (hmx : cfg.maxTradeUsd = some mx)
    (hsb : cfg.startingBalance = some sb)
    (hsum : st.ledger.summary = recalculateSummary st.ledger.trades)
    (hRes : (processSignals cfg env st).trader.openTrade = some t) :
    t.contractSize =
      floorCents (min (max mn (min mx
        ((sb + ((st.ledger.trades.filter (fun tr => tr.isClosed)).map
          (fun tr => tr.pnl)).sum) * sp)))
        (sb + ((st.ledger.trades.filter (fun tr => tr.isClosed)).map
          (fun tr => tr.pnl)).sum)) ∧
    ∃ px : ℚ, 0 < px ∧ t.entryPrice = some (JNum.fin px) ∧
      env.signals.polyPrice t.side = some px ∧
      t.shares = some (JNum.fin (t.contractSize / px)) := by
  have hreal : st.ledger.summary.totalPnL =
      ((st.ledger.trades.filter (fun tr => tr.isClosed)).map (fun tr => tr.pnl)).sum := by
    rw [hsum, recalculateSummary_totalPnL]
  unfold processSignals at hRes
  rw [hOpen] at hRes
  dsimp only [Option.isNone_none, Bool.true_and] at hRes
  repeat' split at hRes
  all_goals try (solve | (exfalso; simp_all))
  rename_i hEn hSc x2 x1 s px hside hbind hcond hmeets x0 nt hnt
  obtain ⟨hpx, hsz, hnt2⟩ := tryOpenTrade_inv _ _ _ _ _ _ _ _ _ hnt
  have ht : t = nt := by simpa using hRes.symm
  subst ht
  subst hnt2
  constructor
  · show computeContractSizeUsd cfg st.ledger = _
    rw [computeContractSizeUsd_formula cfg st.ledger sp mn mx sb hsp hsp0 hmn hmx hsb
      (balance_pos_of_size_pos _ _ hsz), hreal]
  · refine ⟨px, hpx, rfl, ?_, rfl⟩
    show env.signals.polyPrice s = some px
    simpa [hside] using hbind

/-- Witness for C1, end-to-end scenario A: balance $1000, stake 10% — the
entry tick opens a $100-notional trade; at entry price 20¢ the shares are
exactly 500. -/
theorem c1_position_sizing_witness :
    ∃ t : Trade,
      (processSignals defaultPaperConfig envEntry stFlat).trader.openTrade = some t ∧
      t.contractSize = 100 ∧
      t.entryPrice = some (JNum.fin (1 / 5)) ∧
      t.shares = some (JNum.fin 500) := by
  obtain ⟨t, hRes, hside, hinf, happ⟩ := scenarioA_run
  have h := c1_position_sizing defaultPaperConfig envEntry stFlat t
    (1 / 10) 25 250 1000 rfl rfl (by norm_num) rfl rfl rfl rfl hRes
  obtain ⟨px, hpx, hep, hpp, hsh⟩ := h.2
  have hsz100 : t.contractSize = 100 := by
    rw [h.1]
    norm_num [stFlat, emptyLedger, floorCents]
  have hpx5 : px = 1 / 5 := by
    rw [hside] at hpp
    simpa [envEntry, sigEntry, Signals.polyPrice] using hpp.symm
  refine ⟨t, hRes, hsz100, ?_, ?_⟩
  · rw [hep, hpx5]
  · rw [hsh, hsz100, hpx5]
    norm_num

/-- The empty collection holds no OPEN trade. -/
lemma openCount_nil : openCount [] = 0 := rfl

/-- OPEN-trade counts add across concatenation. -/
lemma openCount_append (l1 l2 : List Trade) :
    openCount (l1 ++ l2) = openCount l1 + openCount l2 := by
  simp [openCount, List.filter_append]

/-- No OPEN trade exists exactly when every record is closed. -/
lemma openCount_eq_zero (l : List Trade) :
    openCount l = 0 ↔ ∀ u ∈ l, u.isOpen = false := by
  simp [openCount, List.length_eq_zero, List.filter_eq_nil]

/-- A nonzero OPEN count exhibits an OPEN record. -/
lemma openCount_exists_open (l : List Trade) (h : openCount l ≠ 0) :
    ∃ u ∈ l, u.isOpen = true := by
  by_contra hc
  push_neg at hc
  exact h ((openCount_eq_zero l).mpr fun u hu =>
    Bool.eq_false_iff.mpr fun ht => absurd ht (by simpa using hc u hu))

/-- The OPEN count of a cons. -/
lemma openCount_cons (t : Trade) (ts : List Trade) :
    openCount (t :: ts) = (if t.isOpen then 1 else 0) + openCount ts := by
  by_cases h : t.isOpen = true <;> simp [openCount, List.filter_cons, h] <;> omega

/-- Every record of `replaceFirst` comes from the original list or is the
patch. -/
lemma replaceFirst_mem (tid : Option ℕ) (p : Trade) (l : List Trade) (u : Trade)
    (hu : u ∈ replaceFirst tid p l) : u ∈ l ∨ u = p := by
  induction l with
  | nil => simp [replaceFirst] at hu
  | cons t ts ih =>
    unfold replaceFirst at hu
    split at hu
    · rcases List.mem_cons.mp hu with h | h
      · exact Or.inr h
      · exact Or.inl (List.mem_cons_of_mem _ h)
    · rcases List.mem_cons.mp hu with h | h
      · exact Or.inl (h ▸ List.mem_cons_self t ts)
      · rcases ih h with h2 | h2
        · exact Or.inl (List.mem_cons_of_mem _ h2)
        · exact Or.inr h2

/-- Patching the unique OPEN record (identified by its id) with a CLOSED
record empties the OPEN count. -/
lemma openCount_replaceFirst_closed (tid : Option ℕ) (p : Trade) (l : List Trade)
    (hp : p.isOpen = false)
    (hiff : ∀ u ∈ l, (u.isOpen = true ↔ u.id = tid))
    (hc : openCount l = 1) :
    openCount (replaceFirst tid p l) = 0 := by
  induction l with
  | nil => rfl
  | cons t ts ih =>
    unfold replaceFirst
    split
    · rename_i hid
      have htop : t.isOpen = true := (hiff t (List.mem_cons_self t ts)).mpr hid
      have hcc := openCount_cons t ts
      rw [htop] at hcc
      simp only [if_true] at hcc
      have hts : openCount ts = 0 := by omega
      rw [openCount_cons, hp]
      simp [hts]
    · rename_i hid
      have htcl : t.isOpen = false := by
        cases ho : t.isOpen with
        | false => rfl
        | true => exact absurd ((hiff t (List.mem_cons_self t ts)).mp ho) hid
      have hcc := openCount_cons t ts
      rw [htcl] at hcc
      simp only [Bool.false_eq_true, if_false, Nat.zero_add] at hcc
      have hts : openCount ts = 1 := by omega
      rw [openCount_cons, htcl]
      simp only [Bool.false_eq_true, if_false, Nat.zero_add]
      exact ih (fun u hu => hiff u (List.mem_cons_of_mem _ hu)) hts

/-- Patching with a CLOSED record never increases the OPEN count. -/
lemma openCount_replaceFirst_le (tid : Option ℕ) (p : Trade) (l : List Trade)
    (hp : p.isOpen = false) :
    openCount (replaceFirst tid p l) ≤ openCount l := by
  induction l with
  | nil => exact Nat.le_refl _
  | cons t ts ih =>
    unfold replaceFirst
    split
    · rw [openCount_cons, openCount_cons, hp]
      simp only [Bool.false_eq_true, if_false, Nat.zero_add]
      exact Nat.le_add_left _ _
    · rw [openCount_cons, openCount_cons]
      exact Nat.add_le_add_left ih _

/-- `updateTrade` with a CLOSED patch never increases the OPEN count. -/
lemma openCount_updateTrade_le (tid : Option ℕ) (p : Trade) (l : Ledger)
    (hp : p.isOpen = false) :
    openCount (updateTrade tid p l).trades ≤ openCount l.trades := by
  unfold updateTrade
  split
  · exact openCount_replaceFirst_le tid p l.trades hp
  · exact Nat.le_refl _

/-- `updateTrade` closing the unique OPEN record empties the OPEN count. -/
lemma openCount_updateTrade_closed (tid : Option ℕ) (p : Trade) (l : Ledger)
    (hp : p.isOpen = false)
    (hiff : ∀ u ∈ l.trades, (u.isOpen = true ↔ u.id = tid))
    (hc : openCount l.trades = 1) :
    openCount (updateTrade tid p l).trades = 0 := by
  unfold updateTrade
  split
  · exact openCount_replaceFirst_closed tid p l.trades hp hiff hc
  · rename_i hany
    obtain ⟨u, hu, huo⟩ := openCount_exists_open l.trades (by omega)
    exact absurd (List.any_eq_true.mpr ⟨u, hu, by simp [(hiff u hu).mp huo]⟩) hany

/-- Every record of `updateTrade` comes from the original ledger or is the
patch. -/
lemma updateTrade_mem (tid : Option ℕ) (p : Trade) (l : Ledger) (u : Trade)
    (hu : u ∈ (updateTrade tid p l).trades) : u ∈ l.trades ∨ u = p := by
  unfold updateTrade at hu
  split at hu
  · exact replaceFirst_mem tid p l.trades u hu
  · exact Or.inl hu

/-- A close record is never OPEN. -/
lemma closedRecord_not_open (nowIso : String) (t : Trade) (p : ℚ) (r : String) :
    (closedRecord nowIso t p r).isOpen = false := rfl

/-- Closing preserves the trade id. -/
lemma closedRecord_id (nowIso : String) (t : Trade) (p : ℚ) (r : String) :
    (closedRecord nowIso t p r).id = t.id := rfl

/-- The coupled invariant bounds the OPEN count by one. -/
lemma tradeInv_le_one (ot : Option Trade) (ts : List Trade) (h : TradeInv ot ts) :
    openCount ts ≤ 1 := by
  cases ot with
  | none => simp only [TradeInv] at h; omega
  | some t => simp only [TradeInv] at h; omega

/-- A successful flip-open carries the fresh id, the tick timestamp, OPEN
status, and passes both validity checks. -/
lemma tryFlipTrade_fields (cfg : PaperConfig) (env : TickEnv) (ms : String) (ns : Side)
    (llq lvol : Bool) (ledger : Ledger) (fl : Trade)
    (h : tryFlipTrade cfg env ms ns llq lvol ledger = some fl) :
    fl.id = some env.freshId ∧ fl.timestamp = some env.nowIso ∧
    fl.status = some TStatus.opened ∧ fl.isOpen = true ∧
    badEntryPrice fl.entryPrice = false ∧ badShares fl.shares = false := by
  unfold tryFlipTrade at h
  cases hpx : env.signals.polyPrice ns with
  | none => rw [hpx] at h; exact absurd h (by simp)
  | some epx =>
    rw [hpx] at h
    cases hg : (decide (cfg.minPolyPrice.getD (1 / 1000) ≤ epx) &&
        decide (epx ≤ cfg.maxPolyPrice.getD (999 / 1000)) && !llq && !lvol) with
    | false => simp only [hg, Bool.false_eq_true, if_false] at h; exact absurd h (by simp)
    | true =>
      simp only [hg, if_true] at h
      cases hsz : decide (computeContractSizeUsd cfg ledger ≤ 0) with
      | true => simp only [hsz, if_true] at h; exact absurd h (by simp)
      | false =>
        simp only [hsz, Bool.false_eq_true, if_false] at h
        cases hpos : decide ((0 : ℚ) < epx) with
        | false => simp only [hpos, Bool.false_eq_true, if_false] at h; exact absurd h (by simp)
        | true =>
          simp only [hpos, if_true] at h
          cases hsh : decide ((0 : ℚ) < computeContractSizeUsd cfg ledger / epx) with
          | false =>
            simp only [hsh, Bool.false_eq_true, if_false] at h
            exact absurd h (by simp)
          | true =>
            simp only [hsh, if_true, Option.some.injEq] at h
            subst h
            refine ⟨rfl, rfl, rfl, rfl, ?_, ?_⟩
            · simp [flipRecord, badEntryPrice]
              exact of_decide_eq_true hpos
            · simp [flipRecord, badShares]
              exact of_decide_eq_true hsh

/-- Under the coupled invariant the held trade id differs from a fresh id. -/
lemma heldId_ne_fresh (ts : List Trade) (tid : Option ℕ) (k : ℕ)
    (hcount : openCount ts = 1)
    (hiff : ∀ u ∈ ts, (u.isOpen = true ↔ u.id = tid))
    (hfresh : ∀ u ∈ ts, u.id ≠ some k) : tid ≠ some k := by
  obtain ⟨u, hu, huo⟩ := openCount_exists_open ts (by omega)
  rw [← (hiff u hu).mp huo]
  exact hfresh u hu

/-- Freshness of an id survives `updateTrade` with a patch carrying the
matched id. -/
lemma updateTrade_fresh (tid : Option ℕ) (p : Trade) (l : Ledger) (k : ℕ)
    (hfresh : ∀ u ∈ l.trades, u.id ≠ some k) (hp : p.id = tid) (htid : tid ≠ some k) :
    ∀ u ∈ (updateTrade tid p l).trades, u.id ≠ some k := by
  intro u hu
  rcases updateTrade_mem tid p l u hu with h | h
  · exact hfresh u h
  · rw [h, hp]; exact htid

/-- The exit branch preserves the coupled one-OPEN-trade invariant. -/
lemma processExit_trade_inv (cfg : PaperConfig) (env : TickEnv) (st1 : TraderState)
    (ledger : Ledger) (trade : Trade) (ms : String) (c1 c2 c3 c4 : Bool)
    (hst1 : st1.openTrade = some trade)
    (hcount : openCount ledger.trades = 1)
    (hiff : ∀ u ∈ ledger.trades, (u.isOpen = true ↔ u.id = trade.id))
    (hfresh : ∀ u ∈ ledger.trades, u.id ≠ some env.freshId) :
    TradeInv (processExit cfg env st1 ledger trade ms c1 c2 c3 c4).trader.openTrade
      (processExit cfg env st1 ledger trade ms c1 c2 c3 c4).ledger.trades := by
  have hclosed0 : ∀ (exitPx : ℚ) (reason : String),
      openCount (updateTrade trade.id
        (closedRecord env.nowIso trade exitPx reason) ledger).trades = 0 :=
    fun exitPx reason => openCount_updateTrade_closed _ _ _
      (closedRecord_not_open _ _ _ _) hiff hcount
  have hnoop : TradeInv (some trade) ledger.trades := ⟨hcount, hiff⟩
  unfold processExit
  dsimp only
  split
  · -- rollover guard fired
    split
    · exact hclosed0 _ _
    · rw [hst1]; exact hnoop
  · split
    · -- an exit rule fired
      split
      · -- a quote for the held side exists
        rename_i exitPx hpx
        split
        · -- flip scheduled: match on tryFlipTrade
          split
          · rename_i flipped hfl
            obtain ⟨hid, hts, hstat, hopen, hep, hsh⟩ :=
              tryFlipTrade_fields _ _ _ _ _ _ _ _ hfl
            rw [addTrade_append env.freshId env.nowIso flipped _ env.freshId env.nowIso
              hid hts hstat hep hsh]
            show TradeInv (some flipped) _
            have h0 := hclosed0 exitPx
              (exitDecision cfg env st1.lastFlipAtMs trade c1 c2).exitReason
            have hfr : ∀ u ∈ (updateTrade trade.id
                (closedRecord env.nowIso trade exitPx
                  (exitDecision cfg env st1.lastFlipAtMs trade c1 c2).exitReason)
                ledger).trades,
                u.id ≠ some env.freshId :=
              updateTrade_fresh _ _ _ _ hfresh (closedRecord_id _ _ _ _)
                (heldId_ne_fresh _ _ _ hcount hiff hfresh)
            constructor
            · rw [openCount_append, h0, openCount_cons, hopen]
              simp [openCount_nil]
            · intro u hu
              rcases List.mem_append.mp hu with h | h
              · have hucl : u.isOpen = false := (openCount_eq_zero _).mp h0 u h
                have huid : u.id ≠ flipped.id := by rw [hid]; exact hfr u h
                constructor
                · intro hx; rw [hucl] at hx; exact absurd hx (by simp)
                · intro hx; exact absurd hx huid
              · have : u = flipped := by simpa using h
                subst this
                simp [hopen]
          · exact hclosed0 _ _
        · exact hclosed0 _ _
      · rw [hst1]; exact hnoop
    · rw [hst1]; exact hnoop

/-- One evaluated tick preserves the coupled one-OPEN-trade invariant,
provided the tick id is fresh for the ledger. -/
lemma processSignals_trade_inv (cfg : PaperConfig) (env : TickEnv) (st : SysState)
    (hInv : TradeInv st.trader.openTrade st.ledger.trades)
    (hfresh : ∀ u ∈ st.ledger.trades, u.id ≠ some env.freshId) :
    TradeInv (processSignals cfg env st).trader.openTrade
      (processSignals cfg env st).ledger.trades := by
  unfold processSignals
  dsimp only
  split
  · exact hInv
  · split
    · exact hInv
    · split
      · exact hInv
      · exact hInv
      · rename_i s px hside hbind
        split
        · rename_i hcond
          split
          · split
            · rename_i nt hnt
              simp only [Bool.and_eq_true] at hcond
              have hOpenN : st.trader.openTrade = none :=
                Option.isNone_iff_eq_none.mp hcond.1.1.1.1.2
              rw [hOpenN] at hInv
              have h0 : openCount st.ledger.trades = 0 := hInv
              obtain ⟨hpx, hsz, hnt2⟩ := tryOpenTrade_inv _ _ _ _ _ _ _ _ _ hnt
              subst hnt2
              rw [addTrade_append env.freshId env.nowIso _ _ env.freshId env.nowIso
                rfl rfl rfl
                (by simp [entryRecord, badEntryPrice]; exact hpx)
                (by simp [entryRecord, badShares]; exact div_pos hsz hpx)]
              show TradeInv (some _) _
              constructor
              · rw [openCount_append, h0, openCount_cons]
                simp [Trade.isOpen, entryRecord, openCount_nil]
              · intro u hu
                rcases List.mem_append.mp hu with h | h
                · have hucl : u.isOpen = false := (openCount_eq_zero _).mp h0 u h
                  have huid : u.id ≠ some env.freshId := hfresh u h
                  constructor
                  · intro hx; rw [hucl] at hx; exact absurd hx (by simp)
                  · intro hx; exact absurd hx huid
                · have hu2 : u = entryRecord env (marketSlugOf env.signals) s
                      (resolveSide (strictRecOf cfg) env.signals).sideInferred px
                      (computeContractSizeUsd cfg st.ledger / px)
                      (computeContractSizeUsd cfg st.ledger)
                      ((env.signals.recOut.map (fun r => r.phase)).getD "") := by
                    simpa using h
                  subst hu2
                  simp [Trade.isOpen, entryRecord]
            · exact hInv
          · exact hInv
        · split
          · rename_i trade heq
            rw [heq] at hInv
            obtain ⟨hcount, hiff⟩ := hInv
            exact processExit_trade_inv _ _ _ _ _ _ _ _ _ _ heq hcount hiff hfresh
          · exact hInv

/-- Trader initialization never increases the OPEN count. -/
lemma traderInitialize_le (nowIso : String) (ledger : Ledger) :
    openCount (traderInitialize nowIso ledger).2.trades ≤ openCount ledger.trades := by
  unfold traderInitialize
  dsimp only
  split
  · exact Nat.le_refl _
  · split
    · exact openCount_updateTrade_le _ _ _ rfl
    · exact Nat.le_refl _

/-- Counterexample to C6: the raw ledger append does NOT preserve "at most
one OPEN trade" — appending a second valid OPEN trade (`trUp2`) to a ledger
already holding the OPEN `trUp` yields two OPEN records, because `addTrade`
checks only the validity of the incoming record, never the count of OPEN
records already present. -/
theorem c6_single_open_counterexample :
    openCount ledOpen.trades = 1 ∧
    trUp2.status = some TStatus.opened ∧
    openCount (addTrade 2 "t2" trUp2 ledOpen).trades = 2 := by
  refine ⟨rfl, rfl, ?_⟩
  rw [addTrade_append 2 "t2" trUp2 ledOpen 2 "t" rfl rfl rfl
    (by simp [trUp2, trUp, badEntryPrice])
    (by simp [trUp2, trUp, badShares])]
  rfl

/-- C6 as amended: "at most one OPEN trade" holds as a coupled trader/ledger
invariant, not as a property of each ledger operation in isolation: one
evaluated tick (entry, exit and flip included) preserves the invariant when
the tick id is fresh; `updateTrade` with a CLOSED patch and trader
initialization never increase the OPEN count. The raw append is the
exception (see the counterexample). -/
theorem c6_single_open_amended (cfg : PaperConfig) (env : TickEnv) (st : SysState)
    (tid : Option ℕ) (patched : Trade) (ledger : Ledger) (nowIso : String)
    (hInv : TradeInv st.trader.openTrade st.ledger.trades)
    (hfresh : ∀ u ∈ st.ledger.trades, u.id ≠ some env.freshId) :
    TradeInv (processSignals cfg env st).trader.openTrade
      (processSignals cfg env st).ledger.trades ∧
    openCount (processSignals cfg env st).ledger.trades ≤ 1 ∧
    (patched.isOpen = false →
      openCount (updateTrade tid patched ledger).trades ≤ openCount ledger.trades) ∧
    openCount (traderInitialize nowIso ledger).2.trades ≤ openCount ledger.trades := by
  have hmain := processSignals_trade_inv cfg env st hInv hfresh
  exact ⟨hmain, tradeInv_le_one _ _ hmain,
    fun hp => openCount_updateTrade_le tid patched ledger hp,
    traderInitialize_le nowIso ledger⟩

/-- Witness for the amended C6 at the rollover tick: the held-trade state
satisfies the invariant, the tick id 7 is fresh, and the tick preserves the
invariant, hence at most one OPEN record remains. -/
theorem c6_single_open_amended_witness :
    TradeInv stOpen.trader.openTrade stOpen.ledger.trades ∧
    (∀ u ∈ stOpen.ledger.trades, u.id ≠ some envRollover.freshId) ∧
    (TradeInv (processSignals defaultPaperConfig envRollover stOpen).trader.openTrade
      (processSignals defaultPaperConfig envRollover stOpen).ledger.trades ∧
     openCount (processSignals defaultPaperConfig envRollover stOpen).ledger.trades ≤ 1 ∧
     (Trade.isOpen { trUp with status := some TStatus.closed } = false →
       openCount (updateTrade (some 1)
         { trUp with status := some TStatus.closed } ledOpen).trades ≤
         openCount ledOpen.trades) ∧
     openCount (traderInitialize "t" ledOpen).2.trades ≤ openCount ledOpen.trades) := by
  have hInv : TradeInv stOpen.trader.openTrade stOpen.ledger.trades := by
    constructor
    · rfl
    · intro u hu
      simp only [stOpen, ledOpen, List.mem_singleton] at hu
      subst hu
      decide
  have hfresh : ∀ u ∈ stOpen.ledger.trades, u.id ≠ some envRollover.freshId := by decide
  exact ⟨hInv, hfresh,
    c6_single_open_amended defaultPaperConfig envRollover stOpen (some 1)
      { trUp with status := some TStatus.closed } ledOpen "t" hInv hfresh⟩

end PolyBot
